import Mathlib

/-!
Shallow embedding of `crates/bevy_render/src/pipeline/pipeline_compiler.rs`
(the shader/pipeline specialization compiler) together with the surrounding
data it manipulates.

Modelling conventions:
* `Handle<T>` is identified by its id; `clone_weak` preserves the id, so a
  handle is modelled as a `Nat`.
* `HashMap` fields are modelled as association lists; `HashSet<String>`
  fields are modelled as `List String` whose Rust `Eq` (set equality) is the
  explicit boolean `strSetEq`.
* Backend calls (`RenderResourceContext`) are a record of pure functions
  passed in as a parameter; the number of backend compile / materialize
  calls a method performs is returned explicitly so that caching claims
  about "no additional backend call" can be stated.
* Rust panics (`unwrap` on a missing asset or on a shader error, and the
  `expect("Reflected layout has no attributes.")`) are modelled by the
  operation returning `none`.
-/

set_option linter.unusedVariables false

/-- Asset handle (`Handle<T>`): identified by its id. -/
abbrev Handle := Nat

/-- Handle-indexed asset storage (`bevy_asset::Assets<T>`): `add` allocates a
fresh id, `get` looks a handle up, `remove` deletes a slot. -/
structure Assets (α : Type) where
  data : List (Handle × α)
  nextId : Nat
  deriving DecidableEq, Repr

def Assets.get {α : Type} (a : Assets α) (h : Handle) : Option α :=
  (a.data.find? (fun p => p.1 == h)).map (fun p => p.2)

def Assets.add {α : Type} (a : Assets α) (x : α) : Handle × Assets α :=
  (a.nextId, ⟨(a.nextId, x) :: a.data, a.nextId + 1⟩)

def Assets.remove {α : Type} (a : Assets α) (h : Handle) : Assets α :=
  ⟨a.data.filter (fun p => p.1 != h), a.nextId⟩

/-- Well-formed storage: every stored id is below the allocation counter, so
`add` never shadows an existing slot. -/
def Assets.wf {α : Type} (a : Assets α) : Prop :=
  ∀ p ∈ a.data, p.1 < a.nextId

/-- Association-list lookup, modelling `HashMap::get`. -/
def alookup {β : Type} (m : List (Handle × β)) (k : Handle) : Option β :=
  match m with
  | [] => none
  | p :: rest => if p.1 == k then some p.2 else alookup rest k

/-- `HashMap::entry(k).or_insert_with(d)`: make sure the key is present. -/
def ensureKey {β : Type} (m : List (Handle × β)) (k : Handle) (d : β) :
    List (Handle × β) :=
  match m with
  | [] => [(k, d)]
  | p :: rest => if p.1 == k then p :: rest else p :: ensureKey rest k d

/-- Overwrite the value stored at an existing key. -/
def setKey {β : Type} (m : List (Handle × β)) (k : Handle) (v : β) :
    List (Handle × β) :=
  match m with
  | [] => []
  | p :: rest => if p.1 == k then (p.1, v) :: setKey rest k v
                 else p :: setKey rest k v

/-- `HashMap::remove`. -/
def removeKey {β : Type} (m : List (Handle × β)) (k : Handle) :
    List (Handle × β) :=
  match m with
  | [] => []
  | p :: rest => if p.1 == k then removeKey rest k else p :: removeKey rest k

/-- `entry(k).or_insert_with(..).push(v)`: append `v` to the list at `k`,
creating the key when absent. -/
def pushKey {β : Type} (m : List (Handle × List β)) (k : Handle) (v : β) :
    List (Handle × List β) :=
  match m with
  | [] => [(k, [v])]
  | p :: rest => if p.1 == k then (p.1, p.2 ++ [v]) :: rest
                 else p :: pushKey rest k v

/-- Equality of `HashSet<String>` values: mutual containment. -/
def strSetEq (a b : List String) : Bool :=
  a.all (fun x => b.contains x) && b.all (fun x => a.contains x)

/-- `ShaderSource` (used by `compile_shader`): either final opaque binary
(SPIR-V) or textual source. -/
inductive ShaderSource : Type where
  | Spirv (data : List Nat)
  | Glsl (source : String)
  deriving DecidableEq, Repr

/-- `Shader`: only its `source` field is read by the pipeline compiler. -/
structure Shader where
  source : ShaderSource
  deriving DecidableEq, Repr

/-- `ShaderError`: the backend rejected source + definitions. -/
inductive ShaderError : Type where
  | CompileError (msg : String)
  deriving DecidableEq, Repr

instance {ε α : Type} [DecidableEq ε] [DecidableEq α] :
    DecidableEq (Except ε α) :=
  fun a b =>
    match a, b with
    | Except.ok x, Except.ok y => decidable_of_iff (x = y) (by simp)
    | Except.error x, Except.error y => decidable_of_iff (x = y) (by simp)
    | Except.ok _, Except.error _ => isFalse (by simp)
    | Except.error _, Except.ok _ => isFalse (by simp)

/-- `ShaderSpecialization`: a set of preprocessor definitions.  The
`HashSet<String>` is modelled as a list; its Rust equality is `eqv`. -/
structure ShaderSpecialization where
  shader_defs : List String
  deriving DecidableEq, Repr

/-- Rust `==` on `ShaderSpecialization` (`HashSet` set equality). -/
def ShaderSpecialization.eqv (a b : ShaderSpecialization) : Bool :=
  strSetEq a.shader_defs b.shader_defs

/-- `PrimitiveTopology`. -/
inductive PrimitiveTopology : Type where
  | PointList | LineList | LineStrip | TriangleList | TriangleStrip
  deriving DecidableEq, Repr

/-- `IndexFormat`. -/
inductive IndexFormat : Type where
  | Uint16 | Uint32
  deriving DecidableEq, Repr

/-- `InputStepMode`. -/
inductive InputStepMode : Type where
  | Vertex | Instance
  deriving DecidableEq, Repr

/-- Vertex attribute formats; only compared for equality and copied, so the
enum is modelled by a numeric code. -/
abbrev VertexFormat := Nat

/-- `VertexAttributeDescriptor`: name, offset, format and shader location. -/
structure VertexAttributeDescriptor where
  name : String
  offset : Nat
  format : VertexFormat
  shader_location : Nat
  deriving DecidableEq, Repr

/-- `VertexBufferDescriptor`: name, stride, step mode and attribute list.
Its Rust `Default` has empty name, zero stride, `Vertex` step mode and no
attributes. -/
structure VertexBufferDescriptor where
  name : String
  stride : Nat
  step_mode : InputStepMode
  attributes : List VertexAttributeDescriptor
  deriving DecidableEq, Repr

/-- `BindType`: the pipeline compiler only distinguishes `Uniform` (whose
`dynamic` flag it may flip, keeping the rest of the payload) from every
other variant (collapsed into `NonUniform`). -/
inductive BindType : Type where
  | Uniform (dynamic : Bool) (property : Nat)
  | NonUniform (tag : Nat)
  deriving DecidableEq, Repr

/-- `BindingDescriptor`: a named binding inside a bind group. -/
structure BindingDescriptor where
  name : String
  index : Nat
  bind_type : BindType
  deriving DecidableEq, Repr

/-- `BindGroupDescriptor` with its identity/version stamp `id`. -/
structure BindGroupDescriptor where
  index : Nat
  bindings : List BindingDescriptor
  id : Nat
  deriving DecidableEq, Repr

/-- Modelled from the spec: `BindGroupDescriptor::update_id` bumps the
group's identity/version stamp so dependents invalidate cached binding sets
(the concrete stamping code lives outside this file's source). -/
def BindGroupDescriptor.update_id (g : BindGroupDescriptor) :
    BindGroupDescriptor :=
  { g with id := g.id + 1 }

/-- `PipelineLayout`: bind groups plus vertex buffer descriptors. -/
structure PipelineLayout where
  bind_groups : List BindGroupDescriptor
  vertex_buffer_descriptors : List VertexBufferDescriptor
  deriving DecidableEq, Repr

/-- `ShaderStages`: vertex handle plus optional fragment handle. -/
structure ShaderStages where
  vertex : Handle
  fragment : Option Handle
  deriving DecidableEq, Repr

/-- `PipelineDescriptor`: the fields the pipeline compiler reads or writes
(the remaining descriptor fields are cloned unmodified and are elided). -/
structure PipelineDescriptor where
  shader_stages : ShaderStages
  layout : Option PipelineLayout
  sample_count : Nat
  primitive_topology : PrimitiveTopology
  index_format : IndexFormat
  deriving DecidableEq, Repr

/-- `PipelineSpecialization`: the composite pipeline-cache key. -/
structure PipelineSpecialization where
  shader_specialization : ShaderSpecialization
  primitive_topology : PrimitiveTopology
  dynamic_bindings : List String
  index_format : IndexFormat
  vertex_buffer_descriptors : List VertexBufferDescriptor
  sample_count : Nat
  deriving DecidableEq, Repr

/-- Rust `==` on `PipelineSpecialization`: all fields, with `HashSet` set
equality on the two set-valued fields. -/
def PipelineSpecialization.eqv (a b : PipelineSpecialization) : Bool :=
  a.shader_specialization.eqv b.shader_specialization
    && a.primitive_topology == b.primitive_topology
    && strSetEq a.dynamic_bindings b.dynamic_bindings
    && a.index_format == b.index_format
    && a.vertex_buffer_descriptors == b.vertex_buffer_descriptors
    && a.sample_count == b.sample_count

/-- `SpecializedShader`: (compiled shader handle, shader specialization). -/
structure SpecializedShader where
  shader : Handle
  specialization : ShaderSpecialization
  deriving DecidableEq, Repr

/-- `SpecializedPipeline`: (compiled pipeline handle, pipeline
specialization). -/
structure SpecializedPipeline where
  pipeline : Handle
  specialization : PipelineSpecialization
  deriving DecidableEq, Repr

/-- `PipelineCompiler`: the three caches / reverse indices. -/
structure PipelineCompiler where
  specialized_shaders : List (Handle × List SpecializedShader)
  specialized_shader_pipelines : List (Handle × List Handle)
  specialized_pipelines : List (Handle × List SpecializedPipeline)
  deriving DecidableEq, Repr

/-- The backend (`RenderResourceContext`), as a record of pure functions.
`create_render_pipeline` only has an external effect, so it is represented
by the materialize-call count the compiler reports. -/
structure RenderResourceContext where
  get_specialized_shader : Shader → List String → Except ShaderError Shader
  reflect_pipeline_layout : Assets Shader → ShaderStages → PipelineLayout

/-- `PipelineCompiler::compile_shader` (lines 68-124).  Returns the call
result, the updated compiler and shader storage, and how many backend
`get_specialized_shader` calls were made; `none` models the `unwrap` panic
on a missing shader asset. -/
def PipelineCompiler.compile_shader (c : PipelineCompiler)
    (ctx : RenderResourceContext) (shaders : Assets Shader)
    (shader_handle : Handle) (spec : ShaderSpecialization) :
    Option (Except ShaderError Handle × PipelineCompiler × Assets Shader × Nat) :=
  -- entry(shader_handle).or_insert_with(Vec::new): register bookkeeping
  -- unconditionally, before any other check.
  let c1 : PipelineCompiler :=
    { c with specialized_shaders := ensureKey c.specialized_shaders shader_handle [] }
  match shaders.get shader_handle with
  | none => none
  | some shader =>
    match shader.source with
    | ShaderSource.Spirv _ =>
      -- don't produce a new shader if the input source is already spirv
      some (Except.ok shader_handle, c1, shaders, 0)
    | ShaderSource.Glsl _ =>
      let entries := (alookup c1.specialized_shaders shader_handle).getD []
      match entries.find? (fun e => e.specialization.eqv spec) with
      | some specialized_shader =>
        -- already compiled with this configuration: reuse it
        some (Except.ok specialized_shader.shader, c1, shaders, 0)
      | none =>
        -- no shader with this configuration: compile a new one
        match ctx.get_specialized_shader shader spec.shader_defs with
        | Except.error err => some (Except.error err, c1, shaders, 1)
        | Except.ok compiled_shader =>
          let added := shaders.add compiled_shader
          let c2 : PipelineCompiler :=
            { c1 with specialized_shaders :=
                (setKey c1.specialized_shaders shader_handle
                  (entries ++ [⟨added.1, spec⟩])) }
          some (Except.ok added.1, c2, added.2, 1)

/-- `PipelineCompiler::get_specialized_pipeline` (lines 126-141). -/
def PipelineCompiler.get_specialized_pipeline (c : PipelineCompiler)
    (pipeline : Handle) (specialization : PipelineSpecialization) :
    Option Handle :=
  (alookup c.specialized_pipelines pipeline).bind
    (fun specialized_pipelines =>
      (specialized_pipelines.find?
        (fun current => current.specialization.eqv specialization)).map
        (fun specialized_pipeline => specialized_pipeline.pipeline))

/-- Per-binding step of the dynamic-bindings pass (lines 190-204): a binding
whose name is requested and whose type is `Uniform` gets its `dynamic` flag
set, and reports that the group changed; every other binding is kept. -/
def processBinding (dynamic_bindings : List String)
    (binding : BindingDescriptor) : BindingDescriptor × Bool :=
  if dynamic_bindings.any (fun b => b == binding.name) then
    match binding.bind_type with
    | BindType.Uniform _ property =>
      ({ binding with bind_type := BindType.Uniform true property }, true)
    | BindType.NonUniform t => (binding, false)
  else (binding, false)

/-- Per-group step of the dynamic-bindings pass (lines 188-208): process all
bindings, and bump the group's stamp only when some binding changed. -/
def processBindGroup (dynamic_bindings : List String)
    (bind_group : BindGroupDescriptor) : BindGroupDescriptor :=
  let processed := bind_group.bindings.map (processBinding dynamic_bindings)
  let binding_changed := processed.any (fun p => p.2)
  let bind_group1 :=
    { bind_group with bindings := processed.map (fun p => p.1) }
  if binding_changed then bind_group1.update_id else bind_group1

/-- The dynamic-bindings pass of `compile_pipeline` (lines 186-210): flip
matching uniform bindings to dynamic and bump the stamp of each group in
which some binding changed; skipped when no dynamic binding is requested. -/
def applyDynamicBindings (dynamic_bindings : List String)
    (bind_groups : List BindGroupDescriptor) : List BindGroupDescriptor :=
  if dynamic_bindings.isEmpty then bind_groups
  else bind_groups.map (processBindGroup dynamic_bindings)

/-- Inner reconciliation loop of `compile_pipeline` (lines 241-280): walk
the reflected per-attribute descriptors in shader-declared order, take each
one's first attribute (`none` models the
"Reflected layout has no attributes." panic), and keep those with a
same-name match in the mesh buffer's attribute list, copying the matched
attribute and overwriting its shader location with the reflected one. -/
def matchAttributes (reflected : List VertexBufferDescriptor)
    (mesh_attributes : List VertexAttributeDescriptor) :
    Option (List VertexAttributeDescriptor) :=
  match reflected with
  | [] => some []
  | refl_descriptor :: rest =>
    match refl_descriptor.attributes.head? with
    | none => none
    | some shader_vertex_attribute =>
      match matchAttributes rest mesh_attributes with
      | none => none
      | some tail_attributes =>
        match mesh_attributes.find?
            (fun x => x.name == shader_vertex_attribute.name) with
        | some target_vertex_attribute =>
          some ({ target_vertex_attribute with
                    shader_location := shader_vertex_attribute.shader_location }
                  :: tail_attributes)
        | none => some tail_attributes

/-- One compiled vertex buffer descriptor of `compile_pipeline`
(lines 225-288): step mode and attribute list come from `..Default` plus
the matched attributes; only the mesh buffer's stride and attributes are
read. -/
def compileVertexBufferDescriptor (reflected : List VertexBufferDescriptor)
    (mesh : VertexBufferDescriptor) : Option VertexBufferDescriptor :=
  (matchAttributes reflected mesh.attributes).map (fun attrs =>
    { name := "", stride := mesh.stride, step_mode := InputStepMode.Vertex,
      attributes := attrs })

/-- Vertex-layout reconciliation of `compile_pipeline` (lines 221-294): one
compiled buffer per specialization vertex buffer, in caller-given order. -/
def reconcileVertexLayout (reflected : List VertexBufferDescriptor)
    (mesh_buffers : List VertexBufferDescriptor) :
    Option (List VertexBufferDescriptor) :=
  match mesh_buffers with
  | [] => some []
  | mesh :: rest =>
    match compileVertexBufferDescriptor reflected mesh with
    | none => none
    | some compiled =>
      match reconcileVertexLayout reflected rest with
      | none => none
      | some rest1 => some (compiled :: rest1)

/-- Build the specialized descriptor from the cloned source descriptor, the
specialized stages, the reflected layout and the specialization
(lines 211-297). -/
def specializeDescriptor (source_descriptor : PipelineDescriptor)
    (stages : ShaderStages) (layout : PipelineLayout)
    (pspec : PipelineSpecialization) : Option PipelineDescriptor :=
  let bind_groups := applyDynamicBindings pspec.dynamic_bindings layout.bind_groups
  match reconcileVertexLayout layout.vertex_buffer_descriptors
      pspec.vertex_buffer_descriptors with
  | none => none
  | some vertex_buffer_descriptors =>
    some { source_descriptor with
      shader_stages := stages,
      layout := some { layout with
        bind_groups := bind_groups,
        vertex_buffer_descriptors := vertex_buffer_descriptors },
      sample_count := pspec.sample_count,
      primitive_topology := pspec.primitive_topology,
      index_format := pspec.index_format }

/-- Result of `compile_pipeline`: the specialized handle, the updated
compiler and storages, and the backend call counts (shader compiles and
pipeline materializations). -/
structure CompilePipelineResult where
  handle : Handle
  compiler : PipelineCompiler
  pipelines : Assets PipelineDescriptor
  shaders : Assets Shader
  shaderBackendCalls : Nat
  materializeCalls : Nat
  deriving DecidableEq, Repr

/-- `PipelineCompiler::compile_pipeline` (lines 143-329).  `none` models the
panics (`unwrap` on a missing pipeline asset, `unwrap` on a shader compile
error, and the empty-reflected-attributes `expect`). -/
def PipelineCompiler.compile_pipeline (c : PipelineCompiler)
    (ctx : RenderResourceContext) (pipelines : Assets PipelineDescriptor)
    (shaders : Assets Shader) (source_pipeline : Handle)
    (pspec : PipelineSpecialization) : Option CompilePipelineResult :=
  match pipelines.get source_pipeline with
  | none => none
  | some source_descriptor =>
    match c.compile_shader ctx shaders source_descriptor.shader_stages.vertex
        pspec.shader_specialization with
    | none => none
    | some (Except.error _, _, _, _) => none
    | some (Except.ok specialized_vertex_shader, c1, shaders1, n1) =>
      let fragStep :
          Option (Option Handle × PipelineCompiler × Assets Shader × Nat) :=
        match source_descriptor.shader_stages.fragment with
        | none => some (none, c1, shaders1, 0)
        | some fragment =>
          match c1.compile_shader ctx shaders1 fragment
              pspec.shader_specialization with
          | some (Except.ok fsh, c2, shaders2, n2) =>
            some (some fsh, c2, shaders2, n2)
          | _ => none
      match fragStep with
      | none => none
      | some (specialized_fragment_shader, c2, shaders2, n2) =>
        let stages : ShaderStages :=
          { vertex := specialized_vertex_shader,
            fragment := specialized_fragment_shader }
        let layout := ctx.reflect_pipeline_layout shaders2 stages
        match specializeDescriptor source_descriptor stages layout pspec with
        | none => none
        | some specialized_descriptor =>
          let added := pipelines.add specialized_descriptor
          -- render_resource_context.create_render_pipeline(..): the single
          -- eager backend materialize call, counted below.
          let c3 : PipelineCompiler :=
            { c2 with specialized_shader_pipelines :=
                (pushKey c2.specialized_shader_pipelines
                  specialized_vertex_shader source_pipeline) }
          let c4 : PipelineCompiler :=
            match specialized_fragment_shader with
            | some fsh =>
              { c3 with specialized_shader_pipelines :=
                  pushKey c3.specialized_shader_pipelines fsh source_pipeline }
            | none => c3
          let c5 : PipelineCompiler :=
            { c4 with specialized_pipelines :=
                (pushKey c4.specialized_pipelines source_pipeline
                  ⟨added.1, pspec⟩) }
          some { handle := added.1, compiler := c5, pipelines := added.2,
                 shaders := shaders2, shaderBackendCalls := n1 + n2,
                 materializeCalls := 1 }

/-- Eviction step of `update_shader` (lines 387-402): for each source
pipeline that consumed the stale shader handle, drop its whole
specialized-pipeline list and remove every compiled pipeline object from
asset storage. -/
def evictPipelines (source_pipelines : List Handle)
    (sp : List (Handle × List SpecializedPipeline))
    (pipelines : Assets PipelineDescriptor) :
    List (Handle × List SpecializedPipeline) × Assets PipelineDescriptor :=
  match source_pipelines with
  | [] => (sp, pipelines)
  | source_pipeline :: rest =>
    match alookup sp source_pipeline with
    | none => evictPipelines rest sp pipelines
    | some specialized_pipelines =>
      let sp1 := removeKey sp source_pipeline
      let pipelines1 := specialized_pipelines.foldl
        (fun ps p => ps.remove p.pipeline) pipelines
      evictPipelines rest sp1 pipelines1

/-- The entry loop of `update_shader` (lines 366-404), threading the entry
list, both reverse indices, both asset storages and the backend-call count.
On a backend error the loop stops with the partially updated state
committed, exactly as the Rust early `return Err` does. -/
def updateShaderLoop (ctx : RenderResourceContext) (shader : Handle)
    (entries : List SpecializedShader) (ssp : List (Handle × List Handle))
    (sp : List (Handle × List SpecializedPipeline))
    (pipelines : Assets PipelineDescriptor) (shaders : Assets Shader)
    (calls : Nat) :
    Option (Except ShaderError Unit × List SpecializedShader ×
      List (Handle × List Handle) ×
      List (Handle × List SpecializedPipeline) ×
      Assets PipelineDescriptor × Assets Shader × Nat) :=
  match entries with
  | [] => some (Except.ok (), [], ssp, sp, pipelines, shaders, calls)
  | entry :: rest =>
    match shaders.get shader with
    | none => none
    | some template_shader =>
      match ctx.get_specialized_shader template_shader
          entry.specialization.shader_defs with
      | Except.error err =>
        -- bail immediately; already-processed entries stay committed
        some (Except.error err, entry :: rest, ssp, sp, pipelines, shaders,
          calls + 1)
      | Except.ok compiled =>
        let added := shaders.add compiled
        let entry1 : SpecializedShader := { entry with shader := added.1 }
        let old_handle := entry.shader
        let shaders1 := added.2.remove old_handle
        match alookup ssp old_handle with
        | none =>
          match updateShaderLoop ctx shader rest ssp sp pipelines shaders1
              (calls + 1) with
          | none => none
          | some (res, rest1, ssp1, sp1, pipelines1, shaders2, calls1) =>
            some (res, entry1 :: rest1, ssp1, sp1, pipelines1, shaders2, calls1)
        | some source_pipelines =>
          let ssp1 := removeKey ssp old_handle
          let evicted := evictPipelines source_pipelines sp pipelines
          match updateShaderLoop ctx shader rest ssp1 evicted.1 evicted.2
              shaders1 (calls + 1) with
          | none => none
          | some (res, rest1, ssp2, sp1, pipelines1, shaders2, calls1) =>
            some (res, entry1 :: rest1, ssp2, sp1, pipelines1, shaders2, calls1)

/-- `PipelineCompiler::update_shader` (lines 359-407).  Returns the call
result together with the (possibly partially) updated compiler, storages and
backend compile-call count; `none` models the `unwrap` panic on a missing
template shader asset. -/
def PipelineCompiler.update_shader (c : PipelineCompiler)
    (ctx : RenderResourceContext) (shader : Handle)
    (pipelines : Assets PipelineDescriptor) (shaders : Assets Shader) :
    Option (Except ShaderError Unit × PipelineCompiler ×
      Assets PipelineDescriptor × Assets Shader × Nat) :=
  match alookup c.specialized_shaders shader with
  | none => some (Except.ok (), c, pipelines, shaders, 0)
  | some entries =>
    match updateShaderLoop ctx shader entries c.specialized_shader_pipelines
        c.specialized_pipelines pipelines shaders 0 with
    | none => none
    | some (res, entries1, ssp1, sp1, pipelines1, shaders1, calls) =>
      some (res,
        { specialized_shaders := setKey c.specialized_shaders shader entries1,
          specialized_shader_pipelines := ssp1,
          specialized_pipelines := sp1 },
        pipelines1, shaders1, calls)

/-- `PipelineCompiler::iter_compiled_pipelines` (lines 331-344). -/
def PipelineCompiler.iter_compiled_pipelines (c : PipelineCompiler)
    (pipeline_handle : Handle) : Option (List Handle) :=
  (alookup c.specialized_pipelines pipeline_handle).map
    (fun compiled => compiled.map (fun p => p.pipeline))

/-- `PipelineCompiler::iter_all_compiled_pipelines` (lines 346-355). -/
def PipelineCompiler.iter_all_compiled_pipelines (c : PipelineCompiler) :
    List Handle :=
  (c.specialized_pipelines.map
    (fun kv => kv.2.map (fun p => p.pipeline))).flatten

/-! ## Basic lemmas about the association-list operations -/

theorem alookup_ensureKey_self {β : Type} (m : List (Handle × β)) (k : Handle)
    (d : β) : alookup (ensureKey m k d) k = some ((alookup m k).getD d) := by
  induction m with
  | nil => simp [alookup, ensureKey]
  | cons p rest ih =>
    by_cases h : p.1 = k
    · simp [alookup, ensureKey, h]
    · simp [alookup, ensureKey, h, ih]

theorem alookup_ensureKey_ne {β : Type} (m : List (Handle × β)) (k k' : Handle)
    (d : β) (h : k' ≠ k) : alookup (ensureKey m k d) k' = alookup m k' := by
  induction m with
  | nil => simp [alookup, ensureKey, Ne.symm h]
  | cons p rest ih =>
    by_cases hp : p.1 = k
    · subst hp; simp [alookup, ensureKey, Ne.symm h]
    · simp [alookup, ensureKey, hp, ih]

theorem alookup_ensureKey_getD {β : Type} (m : List (Handle × List β))
    (k k' : Handle) :
    (alookup (ensureKey m k ([] : List β)) k').getD [] =
      (alookup m k').getD [] := by
  by_cases h : k' = k
  · subst h; rw [alookup_ensureKey_self]; cases alookup m k' <;> simp
  · rw [alookup_ensureKey_ne m k k' _ h]

theorem alookup_setKey_self {β : Type} (m : List (Handle × β)) (k : Handle)
    (v w : β) (hw : alookup m k = some w) :
    alookup (setKey m k v) k = some v := by
  induction m with
  | nil => simp [alookup] at hw
  | cons p rest ih =>
    by_cases h : p.1 = k
    · simp [alookup, setKey, h]
    · simp only [alookup, setKey, beq_iff_eq, h, if_false] at hw ⊢
      exact ih hw

theorem alookup_setKey_ne {β : Type} (m : List (Handle × β)) (k k' : Handle)
    (v : β) (h : k' ≠ k) : alookup (setKey m k v) k' = alookup m k' := by
  induction m with
  | nil => simp [setKey]
  | cons p rest ih =>
    by_cases hp : p.1 = k
    · subst hp; simp [alookup, setKey, Ne.symm h, ih]
    · simp [alookup, setKey, hp, ih]

theorem alookup_removeKey_self {β : Type} (m : List (Handle × β)) (k : Handle) :
    alookup (removeKey m k) k = none := by
  induction m with
  | nil => simp [alookup, removeKey]
  | cons p rest ih =>
    by_cases h : p.1 = k
    · simp [removeKey, h, ih]
    · simp [alookup, removeKey, h, ih]

theorem alookup_removeKey_ne {β : Type} (m : List (Handle × β)) (k k' : Handle)
    (h : k' ≠ k) : alookup (removeKey m k) k' = alookup m k' := by
  induction m with
  | nil => simp [removeKey]
  | cons p rest ih =>
    by_cases hp : p.1 = k
    · subst hp; simp [alookup, removeKey, Ne.symm h, ih]
    · simp [alookup, removeKey, hp, ih]

theorem alookup_pushKey_self {β : Type} (m : List (Handle × List β))
    (k : Handle) (v : β) :
    alookup (pushKey m k v) k = some ((alookup m k).getD [] ++ [v]) := by
  induction m with
  | nil => simp [alookup, pushKey]
  | cons p rest ih =>
    by_cases h : p.1 = k
    · simp [alookup, pushKey, h]
    · simp [alookup, pushKey, h, ih]

theorem alookup_pushKey_ne {β : Type} (m : List (Handle × List β))
    (k k' : Handle) (v : β) (h : k' ≠ k) :
    alookup (pushKey m k v) k' = alookup m k' := by
  induction m with
  | nil => simp [alookup, pushKey, Ne.symm h]
  | cons p rest ih =>
    by_cases hp : p.1 = k
    · subst hp; simp [alookup, pushKey, Ne.symm h]
    · simp [alookup, pushKey, hp, ih]

/-! ## The `HashSet` equalities are equivalence relations -/

theorem strSetEq_iff (a b : List String) :
    strSetEq a b = true ↔ ∀ x, x ∈ a ↔ x ∈ b := by
  simp only [strSetEq, Bool.and_eq_true, List.all_eq_true, List.elem_iff]
  constructor
  · rintro ⟨h1, h2⟩ x; exact ⟨fun hx => h1 x hx, fun hx => h2 x hx⟩
  · intro h; exact ⟨fun x hx => (h x).mp hx, fun x hx => (h x).mpr hx⟩

theorem strSetEq_refl (a : List String) : strSetEq a a = true := by
  rw [strSetEq_iff]; intro x; rfl

theorem sspecEqvRefl (a : ShaderSpecialization) :
    a.eqv a = true := strSetEq_refl a.shader_defs

theorem strSetEq_congr (a b c : List String) (h : ∀ x, x ∈ b ↔ x ∈ c) :
    strSetEq a b = strSetEq a c := by
  by_cases hab : strSetEq a b = true
  · have hac : strSetEq a c = true := by
      rw [strSetEq_iff] at hab ⊢; exact fun x => (hab x).trans (h x)
    rw [hab, hac]
  · have hac : ¬strSetEq a c = true := by
      intro hc; apply hab
      rw [strSetEq_iff] at hc ⊢; exact fun x => (hc x).trans (h x).symm
    rw [Bool.eq_false_iff.mpr hab, Bool.eq_false_iff.mpr hac]

theorem sspecEqvCongr (a b c : ShaderSpecialization)
    (h : b.eqv c = true) : a.eqv b = a.eqv c := by
  simp only [ShaderSpecialization.eqv] at h ⊢
  rw [strSetEq_iff] at h
  exact strSetEq_congr _ _ _ h

theorem pspecEqvRefl (a : PipelineSpecialization) :
    a.eqv a = true := by
  simp [PipelineSpecialization.eqv, sspecEqvRefl,
    strSetEq_refl]

theorem pspecEqvCongr (a b c : PipelineSpecialization)
    (h : b.eqv c = true) : a.eqv b = a.eqv c := by
  simp only [PipelineSpecialization.eqv, Bool.and_eq_true, beq_iff_eq] at h
  obtain ⟨⟨⟨⟨⟨h1, h2⟩, h3⟩, h4⟩, h5⟩, h6⟩ := h
  rw [strSetEq_iff] at h3
  simp only [PipelineSpecialization.eqv, h2, h4, h5, h6,
    sspecEqvCongr a.shader_specialization
      b.shader_specialization c.shader_specialization h1,
    strSetEq_congr a.dynamic_bindings b.dynamic_bindings c.dynamic_bindings h3]

/-! ## Concrete fixtures used by counterexamples and witnesses -/

/-- Backend whose shader compiler is the identity and whose reflection
returns an empty layout. -/
def ctx0 : RenderResourceContext :=
  { get_specialized_shader := fun s _ => Except.ok s,
    reflect_pipeline_layout := fun _ _ =>
      { bind_groups := [], vertex_buffer_descriptors := [] } }

/-- One textual template shader stored at handle 0. -/
def shaders0 : Assets Shader := ⟨[(0, ⟨ShaderSource.Glsl "void main()"⟩)], 1⟩

/-- Template pipeline descriptor: vertex stage at handle 0, no fragment. -/
def templateDescriptor : PipelineDescriptor :=
  { shader_stages := { vertex := 0, fragment := none }, layout := none,
    sample_count := 1, primitive_topology := PrimitiveTopology.TriangleList,
    index_format := IndexFormat.Uint32 }

/-- The template pipeline stored at handle 0. -/
def pipelines0 : Assets PipelineDescriptor := ⟨[(0, templateDescriptor)], 1⟩

/-- The specialization with no definitions and `TriangleList` topology. -/
def pspec0 : PipelineSpecialization :=
  { shader_specialization := ⟨[]⟩,
    primitive_topology := PrimitiveTopology.TriangleList,
    dynamic_bindings := [], index_format := IndexFormat.Uint32,
    vertex_buffer_descriptors := [], sample_count := 1 }

/-- The compiler state with empty caches. -/
def emptyCompiler : PipelineCompiler := ⟨[], [], []⟩

/-- First `compile_pipeline` request of the spec scenario. -/
def run1 : Option CompilePipelineResult :=
  emptyCompiler.compile_pipeline ctx0 pipelines0 shaders0 0 pspec0

/-- Second, identical `compile_pipeline` request. -/
def run2 : Option CompilePipelineResult :=
  run1.bind (fun r => r.compiler.compile_pipeline ctx0 r.pipelines r.shaders 0 pspec0)

/-- C1 counterexample: re-requesting the identical specialization through
`compile_pipeline` does NOT return the first handle with one backend
materialize call in total.  The first call returns handle 1; the second,
identical call returns the fresh handle 2 and performs a second
materialize call (2 in total): `compile_pipeline` never consults the
specialized-pipeline cache. -/
theorem compile_pipeline_second_call_recompiles :
    (run1.bind (fun r1 =>
      (r1.compiler.compile_pipeline ctx0 r1.pipelines r1.shaders 0 pspec0).map
        (fun r2 => (r1.handle, r2.handle,
          r1.materializeCalls + r2.materializeCalls))))
      = some (1, 2, 2) ∧ (1 : Handle) ≠ 2 :=
  ⟨rfl, by decide⟩

/-- C2 counterexample: the state reached from the empty compiler by the two
`compile_pipeline` calls of `run2` has, in template pipeline 0's
specialized-pipeline entry list, two entries whose `PipelineSpecialization`s
are equal. -/
theorem specialized_pipelines_duplicate_entries :
    (run2.map (fun r =>
      ((alookup r.compiler.specialized_pipelines 0).getD []).map
        (fun e => e.specialization)))
      = some [pspec0, pspec0] ∧ pspec0.eqv pspec0 = true :=
  ⟨rfl, by decide⟩

/-! ## C6: SPIR-V template shaders pass through unchanged -/

/-- Fixture: a SPIR-V shader stored at handle 3. -/
def shadersSpirv : Assets Shader := ⟨[(3, ⟨ShaderSource.Spirv [7]⟩)], 4⟩

/-- C6: for every template shader whose source is already opaque binary
(SPIR-V) and every specialization, `compile_shader` returns the template
shader's own handle, performs no backend compile call, leaves the shader
assets untouched, and appends no cache entry: it only registers the
bookkeeping key, and every key's entry list is unchanged. -/
theorem compile_shader_spirv_passthrough
    (c : PipelineCompiler) (ctx : RenderResourceContext)
    (shaders : Assets Shader) (h : Handle) (spec : ShaderSpecialization)
    (data : List Nat)
    (hget : shaders.get h = some ⟨ShaderSource.Spirv data⟩) :
    c.compile_shader ctx shaders h spec =
      some (Except.ok h,
        { c with specialized_shaders := ensureKey c.specialized_shaders h [] },
        shaders, 0) ∧
    ∀ k, (alookup (ensureKey c.specialized_shaders h []) k).getD [] =
      (alookup c.specialized_shaders k).getD [] := by
  refine ⟨?_, fun k => alookup_ensureKey_getD _ _ _⟩
  simp [PipelineCompiler.compile_shader, hget]

/-- Witness for C6: a concrete SPIR-V shader at handle 3 passes through. -/
theorem compile_shader_spirv_passthrough_witness :
    (emptyCompiler.compile_shader ctx0 shadersSpirv 3 ⟨["X"]⟩ =
      some (Except.ok 3,
        { emptyCompiler with specialized_shaders :=
            (ensureKey emptyCompiler.specialized_shaders 3 []) },
        shadersSpirv, 0)) ∧
    ∀ k, (alookup (ensureKey emptyCompiler.specialized_shaders 3 []) k).getD [] =
      (alookup emptyCompiler.specialized_shaders k).getD [] :=
  compile_shader_spirv_passthrough emptyCompiler ctx0 shadersSpirv 3 ⟨["X"]⟩ [7] rfl

/-! ## C8: unmatched dynamic-binding names are a no-op -/

theorem processBinding_unmatched (dyn : List String) (b : BindingDescriptor)
    (hb : dyn.any (fun n => n == b.name) = false) :
    processBinding dyn b = (b, false) := by
  simp [processBinding, hb]

theorem processBindGroup_unmatched (dyn : List String)
    (g : BindGroupDescriptor)
    (hg : ∀ b ∈ g.bindings, dyn.any (fun n => n == b.name) = false) :
    processBindGroup dyn g = g := by
  unfold processBindGroup
  have hmap : g.bindings.map (processBinding dyn) =
      g.bindings.map (fun b => (b, false)) :=
    List.map_congr_left (fun b hb => processBinding_unmatched dyn b (hg b hb))
  simp [hmap, List.any_map, List.map_map, Function.comp_def]

/-- C8: if every requested dynamic-binding name matches no binding in any
reflected bind group, the dynamic-bindings pass of `compile_pipeline`
returns every bind group unchanged: no binding is flipped to dynamic-offset
mode and no group's identity/version stamp is bumped. -/
theorem applyDynamicBindings_unmatched_noop
    (dyn : List String) (bind_groups : List BindGroupDescriptor)
    (h : ∀ n ∈ dyn, ∀ g ∈ bind_groups, ∀ b ∈ g.bindings, b.name ≠ n) :
    applyDynamicBindings dyn bind_groups = bind_groups := by
  unfold applyDynamicBindings
  by_cases he : dyn.isEmpty
  · simp [he]
  · simp only [he, Bool.false_eq_true, if_false]
    have hall : ∀ g ∈ bind_groups, processBindGroup dyn g = g := by
      intro g hgmem
      apply processBindGroup_unmatched
      intro b hb
      rw [List.any_eq_false]
      intro n hn
      simp only [beq_iff_eq]
      exact fun hEq => (h n hn g hgmem b hb) hEq.symm
    calc bind_groups.map (processBindGroup dyn)
        = bind_groups.map id := List.map_congr_left (fun g hg => hall g hg)
      _ = bind_groups := List.map_id _

/-- Witness for C8: one uniform binding named "transform", requesting the
absent name "missing" changes nothing. -/
theorem applyDynamicBindings_unmatched_noop_witness :
    applyDynamicBindings ["missing"]
        [⟨0, [⟨"transform", 0, BindType.Uniform false 5⟩], 11⟩] =
      [⟨0, [⟨"transform", 0, BindType.Uniform false 5⟩], 11⟩] :=
  applyDynamicBindings_unmatched_noop _ _ (by decide)

/-! ## Lemmas about the vertex-layout reconciliation -/

theorem matchAttributes_none_of_empty (reflected : List VertexBufferDescriptor)
    (attrs : List VertexAttributeDescriptor) (d : VertexBufferDescriptor)
    (hd : d ∈ reflected) (hempty : d.attributes = []) :
    matchAttributes reflected attrs = none := by
  induction reflected with
  | nil => cases hd
  | cons r rest ih =>
    rcases List.mem_cons.mp hd with h | h
    · subst h; simp [matchAttributes, hempty]
    · cases hh : r.attributes.head? with
      | none => simp [matchAttributes, hh]
      | some sva => simp [matchAttributes, hh, ih h]

theorem matchAttributes_some_of_nonempty (reflected : List VertexBufferDescriptor)
    (attrs : List VertexAttributeDescriptor)
    (hne : ∀ d ∈ reflected, d.attributes ≠ []) :
    ∃ l, matchAttributes reflected attrs = some l := by
  induction reflected with
  | nil => exact ⟨[], rfl⟩
  | cons r rest ih =>
    obtain ⟨l, hl⟩ := ih (fun d hd => hne d (List.mem_cons_of_mem r hd))
    have hner : r.attributes ≠ [] := hne r (List.mem_cons_self r rest)
    cases hh : r.attributes.head? with
    | none => exact absurd (List.head?_eq_none_iff.mp hh) hner
    | some sva =>
      cases hfind : attrs.find? (fun x => x.name == sva.name) with
      | some t =>
        exact ⟨{ t with shader_location := sva.shader_location } :: l,
          by simp [matchAttributes, hh, hl, hfind]⟩
      | none => exact ⟨l, by simp [matchAttributes, hh, hl, hfind]⟩

/-- Success characterization: the matched attribute list is, in
shader-declared order, exactly the reflected attributes with a same-name
match, copied and with the shader location overwritten. -/
theorem matchAttributes_eq_filterMap (reflected : List VertexBufferDescriptor)
    (attrs : List VertexAttributeDescriptor)
    (l : List VertexAttributeDescriptor)
    (h : matchAttributes reflected attrs = some l) :
    l = reflected.filterMap (fun d =>
      d.attributes.head?.bind (fun sva =>
        (attrs.find? (fun x => x.name == sva.name)).map
          (fun t => { t with shader_location := sva.shader_location }))) := by
  induction reflected generalizing l with
  | nil =>
    simp only [matchAttributes] at h
    injection h with h; subst h; rfl
  | cons r rest ih =>
    cases hh : r.attributes.head? with
    | none => simp [matchAttributes, hh] at h
    | some sva =>
      cases hrest : matchAttributes rest attrs with
      | none => simp [matchAttributes, hh, hrest] at h
      | some tl =>
        cases hfind : attrs.find? (fun x => x.name == sva.name) with
        | some t =>
          simp only [matchAttributes, hh, hrest, hfind] at h
          injection h with h; subst h
          simp [List.filterMap_cons, hh, hfind, ih tl hrest]
        | none =>
          simp only [matchAttributes, hh, hrest, hfind] at h
          injection h with h; subst h
          simp [List.filterMap_cons, hh, hfind, ih tl hrest]

theorem compileVertexBufferDescriptor_some (reflected : List VertexBufferDescriptor)
    (mesh cb : VertexBufferDescriptor)
    (h : compileVertexBufferDescriptor reflected mesh = some cb) :
    ∃ l, matchAttributes reflected mesh.attributes = some l ∧
      cb = { name := "", stride := mesh.stride,
             step_mode := InputStepMode.Vertex, attributes := l } := by
  unfold compileVertexBufferDescriptor at h
  cases hm : matchAttributes reflected mesh.attributes with
  | none => rw [hm] at h; cases h
  | some l =>
    rw [hm] at h
    simp only [Option.map_some'] at h
    injection h with h
    exact ⟨l, rfl, h.symm⟩

theorem reconcileVertexLayout_length (reflected mesh_buffers out :
    List VertexBufferDescriptor)
    (hr : reconcileVertexLayout reflected mesh_buffers = some out) :
    out.length = mesh_buffers.length := by
  induction mesh_buffers generalizing out with
  | nil =>
    simp only [reconcileVertexLayout] at hr
    injection hr with hr; subst hr; rfl
  | cons mesh rest ih =>
    unfold reconcileVertexLayout at hr
    cases hc : compileVertexBufferDescriptor reflected mesh with
    | none => rw [hc] at hr; cases hr
    | some compiled =>
      rw [hc] at hr
      cases hrest : reconcileVertexLayout reflected rest with
      | none => rw [hrest] at hr; cases hr
      | some rest1 =>
        rw [hrest] at hr
        injection hr with hr; subst hr
        simp [ih rest1 hrest]

theorem reconcileVertexLayout_get (reflected mesh_buffers out :
    List VertexBufferDescriptor)
    (hr : reconcileVertexLayout reflected mesh_buffers = some out)
    (i : Nat) (hi : i < mesh_buffers.length) (hi' : i < out.length) :
    compileVertexBufferDescriptor reflected (mesh_buffers.get ⟨i, hi⟩) =
      some (out.get ⟨i, hi'⟩) := by
  induction mesh_buffers generalizing out i with
  | nil => cases hi
  | cons mesh rest ih =>
    unfold reconcileVertexLayout at hr
    cases hc : compileVertexBufferDescriptor reflected mesh with
    | none => rw [hc] at hr; cases hr
    | some compiled =>
      rw [hc] at hr
      cases hrest : reconcileVertexLayout reflected rest with
      | none => rw [hrest] at hr; cases hr
      | some rest1 =>
        rw [hrest] at hr
        injection hr with hr; subst hr
        cases i with
        | zero => simpa using hc
        | succ j =>
          exact ih rest1 hrest j (Nat.lt_of_succ_lt_succ hi)
            (Nat.lt_of_succ_lt_succ hi')

theorem reconcileVertexLayout_mem (reflected mesh_buffers out :
    List VertexBufferDescriptor)
    (hr : reconcileVertexLayout reflected mesh_buffers = some out)
    (b : VertexBufferDescriptor) (hb : b ∈ out) :
    ∃ mesh ∈ mesh_buffers,
      compileVertexBufferDescriptor reflected mesh = some b := by
  induction mesh_buffers generalizing out with
  | nil =>
    simp only [reconcileVertexLayout] at hr
    injection hr with hr; subst hr; cases hb
  | cons mesh rest ih =>
    unfold reconcileVertexLayout at hr
    cases hc : compileVertexBufferDescriptor reflected mesh with
    | none => rw [hc] at hr; cases hr
    | some compiled =>
      rw [hc] at hr
      cases hrest : reconcileVertexLayout reflected rest with
      | none => rw [hrest] at hr; cases hr
      | some rest1 =>
        rw [hrest] at hr
        injection hr with hr; subst hr
        rcases List.mem_cons.mp hb with h | h
        · subst h; exact ⟨mesh, List.mem_cons_self _ _, hc⟩
        · obtain ⟨m, hm, hcm⟩ := ih rest1 hrest h
          exact ⟨m, List.mem_cons_of_mem _ hm, hcm⟩

/-! ## C9 and C10: step mode and the empty-reflected-attributes panic -/

/-- Fixture: a reflected layout with one single-attribute descriptor. -/
def reflFixture : List VertexBufferDescriptor :=
  [⟨"position_refl", 0, InputStepMode.Vertex, [⟨"position", 0, 3, 0⟩]⟩]

/-- Fixture: a mesh vertex buffer that uses `Instance` step mode. -/
def meshFixture : VertexBufferDescriptor :=
  ⟨"posbuf", 12, InputStepMode.Instance, [⟨"position", 0, 3, 9⟩]⟩

/-- C9: every compiled vertex-buffer descriptor produced by the
vertex-layout reconciliation of `compile_pipeline` has step mode
`InputStepMode.Vertex`, regardless of the step mode supplied in the
corresponding specialization buffer; and of each specialization buffer only
the stride and the attribute list are read, so two specialization buffers
differing only in step mode (or name) compile identically. -/
theorem compiled_buffers_step_mode_vertex
    (reflected mesh_buffers out : List VertexBufferDescriptor)
    (hr : reconcileVertexLayout reflected mesh_buffers = some out) :
    (∀ b ∈ out, b.step_mode = InputStepMode.Vertex) ∧
    (∀ mesh mesh' : VertexBufferDescriptor, mesh.stride = mesh'.stride →
      mesh.attributes = mesh'.attributes →
      compileVertexBufferDescriptor reflected mesh =
        compileVertexBufferDescriptor reflected mesh') := by
  constructor
  · intro b hb
    obtain ⟨mesh, _, hc⟩ :=
      reconcileVertexLayout_mem reflected mesh_buffers out hr b hb
    obtain ⟨l, _, hcb⟩ := compileVertexBufferDescriptor_some reflected mesh b hc
    rw [hcb]
  · intro mesh mesh' hs ha
    unfold compileVertexBufferDescriptor
    rw [hs, ha]

/-- Witness for C9: an `Instance`-step-mode mesh buffer still compiles to a
`Vertex`-step-mode buffer. -/
theorem compiled_buffers_step_mode_vertex_witness :
    (∀ b ∈ [(⟨"", 12, InputStepMode.Vertex, [⟨"position", 0, 3, 0⟩]⟩ :
        VertexBufferDescriptor)], b.step_mode = InputStepMode.Vertex) ∧
    (∀ mesh mesh' : VertexBufferDescriptor, mesh.stride = mesh'.stride →
      mesh.attributes = mesh'.attributes →
      compileVertexBufferDescriptor reflFixture mesh =
        compileVertexBufferDescriptor reflFixture mesh') :=
  compiled_buffers_step_mode_vertex reflFixture [meshFixture] _ rfl

/-- Fixture: a reflected layout containing a descriptor with no
attributes. -/
def reflEmptyFixture : List VertexBufferDescriptor :=
  [⟨"bad", 0, InputStepMode.Vertex, []⟩]

/-- C10: if the specialization supplies at least one vertex buffer and some
reflected vertex-buffer descriptor has an empty attribute list, the
vertex-layout reconciliation of `compile_pipeline` hits the
"Reflected layout has no attributes." panic, modelled as `none`; and under
the precondition that every reflected descriptor has at least one
attribute, this failure branch is unreachable: reconciliation always
succeeds. -/
theorem reflected_layout_no_attributes_panic
    (reflected mesh_buffers : List VertexBufferDescriptor) :
    (mesh_buffers ≠ [] → ∀ d ∈ reflected, d.attributes = [] →
      reconcileVertexLayout reflected mesh_buffers = none) ∧
    ((∀ d ∈ reflected, d.attributes ≠ []) →
      ∃ out, reconcileVertexLayout reflected mesh_buffers = some out) := by
  constructor
  · intro hmb d hd hempty
    cases mesh_buffers with
    | nil => exact absurd rfl hmb
    | cons mesh rest =>
      have hc : compileVertexBufferDescriptor reflected mesh = none := by
        unfold compileVertexBufferDescriptor
        rw [matchAttributes_none_of_empty reflected mesh.attributes d hd hempty]
        rfl
      unfold reconcileVertexLayout
      rw [hc]
  · intro hne
    induction mesh_buffers with
    | nil => exact ⟨[], rfl⟩
    | cons mesh rest ih =>
      obtain ⟨out, hout⟩ := ih
      obtain ⟨l, hl⟩ :=
        matchAttributes_some_of_nonempty reflected mesh.attributes hne
      exact ⟨{ name := "", stride := mesh.stride,
               step_mode := InputStepMode.Vertex, attributes := l } :: out,
        by simp [reconcileVertexLayout, compileVertexBufferDescriptor, hl, hout]⟩

/-- Witness for C10: a reflected descriptor with no attributes makes
reconciliation panic for a nonempty specialization; with a nonempty
reflected attribute list it succeeds. -/
theorem reflected_layout_no_attributes_panic_witness :
    (reconcileVertexLayout reflEmptyFixture [meshFixture] = none) ∧
    ∃ out, reconcileVertexLayout reflFixture [meshFixture] = some out :=
  ⟨(reflected_layout_no_attributes_panic reflEmptyFixture [meshFixture]).1
      (by decide) ⟨"bad", 0, InputStepMode.Vertex, []⟩ (by decide) rfl,
   (reflected_layout_no_attributes_panic reflFixture [meshFixture]).2
      (by decide)⟩

/-- Combined success characterization of the vertex-layout reconciliation,
used by the C3 theorem. -/
theorem reconcileVertexLayout_characterization
    (reflected mesh_buffers out : List VertexBufferDescriptor)
    (hr : reconcileVertexLayout reflected mesh_buffers = some out) :
    out.length = mesh_buffers.length ∧
    ∀ i (hi : i < mesh_buffers.length) (hi' : i < out.length),
      (out.get ⟨i, hi'⟩).stride = (mesh_buffers.get ⟨i, hi⟩).stride ∧
      (out.get ⟨i, hi'⟩).attributes = reflected.filterMap (fun rd =>
        rd.attributes.head?.bind (fun sva =>
          ((mesh_buffers.get ⟨i, hi⟩).attributes.find?
            (fun x => x.name == sva.name)).map
            (fun t => { t with shader_location := sva.shader_location }))) := by
  refine ⟨reconcileVertexLayout_length _ _ _ hr, ?_⟩
  intro i hi hi'
  have hc := reconcileVertexLayout_get reflected mesh_buffers out hr i hi hi'
  obtain ⟨l, hm, hcb⟩ := compileVertexBufferDescriptor_some _ _ _ hc
  have hfm := matchAttributes_eq_filterMap _ _ _ hm
  rw [hcb]
  exact ⟨rfl, hfm⟩

/-! ## Inversion lemmas for the compile operations -/

theorem Assets.get_add_self {α : Type} (a : Assets α) (x : α) :
    (a.add x).2.get (a.add x).1 = some x := by
  simp [Assets.add, Assets.get, List.find?]

/-- `compile_shader` only touches the `specialized_shaders` cache. -/
theorem compile_shader_state
    (c : PipelineCompiler) (ctx : RenderResourceContext)
    (shaders : Assets Shader) (h : Handle) (spec : ShaderSpecialization)
    (res : Except ShaderError Handle) (c' : PipelineCompiler)
    (sh' : Assets Shader) (n : Nat)
    (hr : c.compile_shader ctx shaders h spec = some (res, c', sh', n)) :
    c'.specialized_pipelines = c.specialized_pipelines ∧
    c'.specialized_shader_pipelines = c.specialized_shader_pipelines := by
  simp only [PipelineCompiler.compile_shader] at hr
  split at hr
  · cases hr
  · split at hr
    · injection hr with hr
      simp only [Prod.mk.injEq] at hr
      obtain ⟨rfl, rfl, rfl, rfl⟩ := hr
      exact ⟨rfl, rfl⟩
    · split at hr
      · injection hr with hr
        simp only [Prod.mk.injEq] at hr
        obtain ⟨rfl, rfl, rfl, rfl⟩ := hr
        exact ⟨rfl, rfl⟩
      · split at hr
        · injection hr with hr
          simp only [Prod.mk.injEq] at hr
          obtain ⟨rfl, rfl, rfl, rfl⟩ := hr
          exact ⟨rfl, rfl⟩
        · injection hr with hr
          simp only [Prod.mk.injEq] at hr
          obtain ⟨rfl, rfl, rfl, rfl⟩ := hr
          exact ⟨rfl, rfl⟩

/-- Success inversion for `compile_pipeline`: it reads the source
descriptor, builds one specialized descriptor, stores it under the fresh
handle, performs exactly one materialize call, and appends the
(handle, specialization) entry to the source pipeline's cache list. -/
theorem compile_pipeline_inv (c : PipelineCompiler) (ctx : RenderResourceContext)
    (pipelines : Assets PipelineDescriptor) (shaders : Assets Shader)
    (src : Handle) (pspec : PipelineSpecialization) (r : CompilePipelineResult)
    (hr : c.compile_pipeline ctx pipelines shaders src pspec = some r) :
    ∃ source_descriptor stages layout specialized,
      pipelines.get src = some source_descriptor ∧
      specializeDescriptor source_descriptor stages layout pspec =
        some specialized ∧
      r.handle = pipelines.nextId ∧
      r.pipelines = (pipelines.add specialized).2 ∧
      r.pipelines.get r.handle = some specialized ∧
      r.materializeCalls = 1 ∧
      r.compiler.specialized_pipelines =
        pushKey c.specialized_pipelines src ⟨r.handle, pspec⟩ := by
  simp only [PipelineCompiler.compile_pipeline] at hr
  split at hr
  · cases hr
  · rename_i source_descriptor hget
    split at hr
    · cases hr
    · cases hr
    · rename_i vres vsh c1 sh1 n1 heqv
      split at hr
      · cases hr
      · rename_i fres ofrag c2 sh2 n2 heqf
        split at hr
        · cases hr
        · rename_i specialized hspec
          injection hr with hr
          subst hr
          have hc1 := compile_shader_state c ctx shaders
            source_descriptor.shader_stages.vertex
            pspec.shader_specialization _ _ _ _ heqv
          have hc2 : c2.specialized_pipelines = c1.specialized_pipelines := by
            split at heqf
            · injection heqf with heqf
              simp only [Prod.mk.injEq] at heqf
              obtain ⟨rfl, rfl, rfl, rfl⟩ := heqf
              rfl
            · rename_i f hf
              split at heqf
              · rename_i fsh c2' sh2' n2' heqf2
                injection heqf with heqf
                simp only [Prod.mk.injEq] at heqf
                obtain ⟨rfl, rfl, rfl, rfl⟩ := heqf
                exact (compile_shader_state c1 ctx sh1 f
                  pspec.shader_specialization _ _ _ _ heqf2).1
              · cases heqf
          refine ⟨source_descriptor, ⟨vsh, ofrag⟩,
            ctx.reflect_pipeline_layout sh2 ⟨vsh, ofrag⟩, specialized,
            hget, hspec, rfl, rfl, Assets.get_add_self pipelines specialized,
            rfl, ?_⟩
          cases ofrag with
          | none => simp only [hc2, hc1.1]
          | some fsh => simp only [hc2, hc1.1]

/-! ## C3: vertex-layout reconciliation inside `compile_pipeline` -/

/-- C3: for every successful `compile_pipeline` call, the stored compiled
descriptor's layout has exactly one vertex-buffer descriptor per
specialization vertex buffer, in caller-given order; the i-th compiled
buffer copies the i-th specialization buffer's stride and contains, in
shader-declared order, exactly those reflected attributes whose name has an
exact match in that specialization buffer's attribute list, with the
matched attribute's offset and format copied and its shader location
overwritten by the reflected location; reflected attributes with no
same-name match are omitted without error. -/
theorem compile_pipeline_vertex_layout
    (c : PipelineCompiler) (ctx : RenderResourceContext)
    (pipelines : Assets PipelineDescriptor) (shaders : Assets Shader)
    (src : Handle) (pspec : PipelineSpecialization) (r : CompilePipelineResult)
    (hr : c.compile_pipeline ctx pipelines shaders src pspec = some r) :
    ∃ d L reflected,
      r.pipelines.get r.handle = some d ∧ d.layout = some L ∧
      reconcileVertexLayout reflected pspec.vertex_buffer_descriptors =
        some L.vertex_buffer_descriptors ∧
      L.vertex_buffer_descriptors.length =
        pspec.vertex_buffer_descriptors.length ∧
      ∀ i (hi : i < pspec.vertex_buffer_descriptors.length)
        (hi' : i < L.vertex_buffer_descriptors.length),
        (L.vertex_buffer_descriptors.get ⟨i, hi'⟩).stride =
          (pspec.vertex_buffer_descriptors.get ⟨i, hi⟩).stride ∧
        (L.vertex_buffer_descriptors.get ⟨i, hi'⟩).attributes =
          reflected.filterMap (fun rd =>
            rd.attributes.head?.bind (fun sva =>
              ((pspec.vertex_buffer_descriptors.get ⟨i, hi⟩).attributes.find?
                (fun x => x.name == sva.name)).map
                (fun t => { t with
                  shader_location := sva.shader_location }))) := by
  obtain ⟨sd, stages, layout, specialized, hget, hspec, hh, hp, hgetr, hm, hcp⟩ :=
    compile_pipeline_inv c ctx pipelines shaders src pspec r hr
  unfold specializeDescriptor at hspec
  cases hrec : reconcileVertexLayout layout.vertex_buffer_descriptors
      pspec.vertex_buffer_descriptors with
  | none => rw [hrec] at hspec; cases hspec
  | some vbufs =>
    rw [hrec] at hspec
    injection hspec with hspec
    subst hspec
    obtain ⟨hlen, hidx⟩ := reconcileVertexLayout_characterization _ _ _ hrec
    exact ⟨_, { layout with
        bind_groups :=
          applyDynamicBindings pspec.dynamic_bindings layout.bind_groups,
        vertex_buffer_descriptors := vbufs },
      layout.vertex_buffer_descriptors, hgetr, rfl, hrec, hlen, hidx⟩

/-- Fixture backend for the C3 witness: reflection yields `reflFixture`. -/
def ctx3 : RenderResourceContext :=
  { get_specialized_shader := fun s _ => Except.ok s,
    reflect_pipeline_layout := fun _ _ =>
      { bind_groups := [], vertex_buffer_descriptors := reflFixture } }

/-- Fixture specialization with one vertex buffer. -/
def pspec3 : PipelineSpecialization :=
  { pspec0 with vertex_buffer_descriptors := [meshFixture] }

/-- The concrete result of compiling `pspec3` from the empty compiler. -/
def run3res : CompilePipelineResult :=
  { handle := 1,
    compiler :=
      { specialized_shaders := [(0, [⟨1, ⟨[]⟩⟩])],
        specialized_shader_pipelines := [(1, [0])],
        specialized_pipelines := [(0, [⟨1, pspec3⟩])] },
    pipelines :=
      ⟨[(1, { shader_stages := { vertex := 1, fragment := none },
              layout := some (PipelineLayout.mk []
                [⟨"", 12, InputStepMode.Vertex, [⟨"position", 0, 3, 0⟩]⟩]),
              sample_count := 1,
              primitive_topology := PrimitiveTopology.TriangleList,
              index_format := IndexFormat.Uint32 }),
        (0, templateDescriptor)], 2⟩,
    shaders := ⟨[(1, ⟨ShaderSource.Glsl "void main()"⟩),
                 (0, ⟨ShaderSource.Glsl "void main()"⟩)], 2⟩,
    shaderBackendCalls := 1,
    materializeCalls := 1 }

/-- Witness for C3 at the concrete `pspec3` request. -/
theorem compile_pipeline_vertex_layout_witness :
    ∃ d L reflected,
      run3res.pipelines.get run3res.handle = some d ∧ d.layout = some L ∧
      reconcileVertexLayout reflected pspec3.vertex_buffer_descriptors =
        some L.vertex_buffer_descriptors ∧
      L.vertex_buffer_descriptors.length =
        pspec3.vertex_buffer_descriptors.length ∧
      ∀ i (hi : i < pspec3.vertex_buffer_descriptors.length)
        (hi' : i < L.vertex_buffer_descriptors.length),
        (L.vertex_buffer_descriptors.get ⟨i, hi'⟩).stride =
          (pspec3.vertex_buffer_descriptors.get ⟨i, hi⟩).stride ∧
        (L.vertex_buffer_descriptors.get ⟨i, hi'⟩).attributes =
          reflected.filterMap (fun rd =>
            rd.attributes.head?.bind (fun sva =>
              ((pspec3.vertex_buffer_descriptors.get ⟨i, hi⟩).attributes.find?
                (fun x => x.name == sva.name)).map
                (fun t => { t with
                  shader_location := sva.shader_location }))) :=
  compile_pipeline_vertex_layout emptyCompiler ctx3 pipelines0 shaders0 0
    pspec3 run3res (by decide)

/-! ## C1 (amended): one materialize per call, cache hit afterwards -/

/-- Amended C1: `compile_pipeline` does not consult the
specialized-pipeline cache.  Every successful call performs exactly one
backend materialize call, allocates a fresh handle (the storage's next id),
and appends a cache entry, so a second identical direct call materializes
again and returns a different, fresh handle; but after any call,
`get_specialized_pipeline` for the identical specialization is a cache hit
(with no backend call, since it is a pure lookup), which is how repeated
draw requests avoid recompiling. -/
theorem compile_pipeline_materializes_and_caches
    (c : PipelineCompiler) (ctx : RenderResourceContext)
    (pipelines : Assets PipelineDescriptor) (shaders : Assets Shader)
    (src : Handle) (pspec : PipelineSpecialization) (r : CompilePipelineResult)
    (hr : c.compile_pipeline ctx pipelines shaders src pspec = some r) :
    r.materializeCalls = 1 ∧ r.handle = pipelines.nextId ∧
    ∃ h, r.compiler.get_specialized_pipeline src pspec = some h := by
  obtain ⟨sd, stages, layout, specialized, hget, hspec, hh, hp, hgetr, hm, hcp⟩ :=
    compile_pipeline_inv c ctx pipelines shaders src pspec r hr
  refine ⟨hm, hh, ?_⟩
  unfold PipelineCompiler.get_specialized_pipeline
  rw [hcp, alookup_pushKey_self]
  have hsome : (((alookup c.specialized_pipelines src).getD [] ++
      [(⟨r.handle, pspec⟩ : SpecializedPipeline)]).find?
        (fun cur => cur.specialization.eqv pspec)).isSome := by
    rw [List.find?_isSome]
    exact ⟨⟨r.handle, pspec⟩, by simp, pspecEqvRefl pspec⟩
  obtain ⟨e, he⟩ := Option.isSome_iff_exists.mp hsome
  refine ⟨e.pipeline, ?_⟩
  show Option.map (fun specialized_pipeline => specialized_pipeline.pipeline)
    (List.find? (fun current => current.specialization.eqv pspec)
      ((alookup c.specialized_pipelines src).getD [] ++
        [(⟨r.handle, pspec⟩ : SpecializedPipeline)])) = some e.pipeline
  rw [he]
  rfl

/-- The concrete result of the first `compile_pipeline` request of the spec
scenario (`run1`). -/
def run1res : CompilePipelineResult :=
  { handle := 1,
    compiler :=
      { specialized_shaders := [(0, [⟨1, ⟨[]⟩⟩])],
        specialized_shader_pipelines := [(1, [0])],
        specialized_pipelines := [(0, [⟨1, pspec0⟩])] },
    pipelines :=
      ⟨[(1, { shader_stages := { vertex := 1, fragment := none },
              layout := some (PipelineLayout.mk [] []),
              sample_count := 1,
              primitive_topology := PrimitiveTopology.TriangleList,
              index_format := IndexFormat.Uint32 }),
        (0, templateDescriptor)], 2⟩,
    shaders := ⟨[(1, ⟨ShaderSource.Glsl "void main()"⟩),
                 (0, ⟨ShaderSource.Glsl "void main()"⟩)], 2⟩,
    shaderBackendCalls := 1,
    materializeCalls := 1 }

/-- Witness for the amended C1 at the concrete `run1` request. -/
theorem compile_pipeline_materializes_and_caches_witness :
    run1res.materializeCalls = 1 ∧ run1res.handle = pipelines0.nextId ∧
    ∃ h, run1res.compiler.get_specialized_pipeline 0 pspec0 = some h :=
  compile_pipeline_materializes_and_caches emptyCompiler ctx0 pipelines0
    shaders0 0 pspec0 run1res (by decide)

/-! ## C5: shader-cache hit returns the first handle with no backend call -/

theorem ensureKey_eq_self {β : Type} (m : List (Handle × β)) (k : Handle)
    (d w : β) (hw : alookup m k = some w) : ensureKey m k d = m := by
  induction m with
  | nil => simp [alookup] at hw
  | cons p rest ih =>
    by_cases h : p.1 = k
    · simp [ensureKey, h]
    · simp only [alookup, beq_iff_eq, h, if_false] at hw
      simp [ensureKey, h, ih hw]

theorem find?_ext {α : Type} (l : List α) (p q : α → Bool)
    (h : ∀ x ∈ l, p x = q x) : l.find? p = l.find? q := by
  induction l with
  | nil => rfl
  | cons a rest ih =>
    rw [List.find?_cons, List.find?_cons, h a (List.mem_cons_self a rest)]
    cases q a with
    | true => rfl
    | false => exact ih (fun x hx => h x (List.mem_cons_of_mem a hx))

theorem Assets.get_add_of_wf {α : Type} (a : Assets α) (x : α) (k : Handle)
    (hwf : a.wf) (v : α) (hget : a.get k = some v) :
    (a.add x).2.get k = some v := by
  have hex : ∃ p, a.data.find? (fun q => q.1 == k) = some p ∧ p.2 = v := by
    unfold Assets.get at hget
    cases hf : a.data.find? (fun q => q.1 == k) with
    | none => rw [hf] at hget; cases hget
    | some p =>
      rw [hf] at hget
      injection hget with hget
      exact ⟨p, rfl, hget⟩
  obtain ⟨p, hf, hv⟩ := hex
  have hmem := List.mem_of_find?_eq_some hf
  have hk : p.1 = k := by simpa using List.find?_some hf
  have hlt : k < a.nextId := hk ▸ hwf p hmem
  have hne : (a.nextId == k) = false := by
    simp [Nat.ne_of_gt hlt]
  unfold Assets.get Assets.add
  simp [List.find?_cons, hne, hf, hv]

/-- C5: for a template shader whose source is not opaque binary, a
`compile_shader` call whose specialization is set-equal to the one used by
an earlier successful call returns the same specialized handle as that
earlier call, performs no backend compile call, and changes nothing: no
cache entry is appended (the compiler state is exactly the one after the
first call) and the shader storage is untouched. -/
theorem compile_shader_cache_hit
    (c : PipelineCompiler) (ctx : RenderResourceContext)
    (shaders : Assets Shader) (h : Handle)
    (spec spec2 : ShaderSpecialization) (h1 : Handle)
    (c1 : PipelineCompiler) (shaders1 : Assets Shader) (n1 : Nat)
    (s : Shader) (src : String)
    (hwf : shaders.wf)
    (hs : shaders.get h = some s)
    (hglsl : s.source = ShaderSource.Glsl src)
    (hfirst : c.compile_shader ctx shaders h spec =
      some (Except.ok h1, c1, shaders1, n1))
    (heqv : spec.eqv spec2 = true) :
    c1.compile_shader ctx shaders1 h spec2 =
      some (Except.ok h1, c1, shaders1, 0) := by
  have hcongr : ∀ e : SpecializedShader,
      e.specialization.eqv spec2 = e.specialization.eqv spec :=
    fun e => (sspecEqvCongr e.specialization spec spec2 heqv).symm
  simp only [PipelineCompiler.compile_shader, hs, hglsl,
    alookup_ensureKey_self, Option.getD_some] at hfirst
  split at hfirst
  · -- first call was itself a cache hit
    rename_i e0 hfind
    injection hfirst with hfirst
    simp only [Prod.mk.injEq] at hfirst
    obtain ⟨he0, hc1, hsh, hn⟩ := hfirst
    subst hc1
    subst hsh
    have hkeyE : alookup (ensureKey c.specialized_shaders h []) h =
        some ((alookup c.specialized_shaders h).getD []) :=
      alookup_ensureKey_self c.specialized_shaders h []
    simp only [PipelineCompiler.compile_shader, hs, hglsl,
      ensureKey_eq_self _ h [] _ hkeyE, hkeyE, Option.getD_some]
    rw [find?_ext _ _ (fun e => e.specialization.eqv spec)
      (fun e hx => hcongr e), hfind]
    simp [he0]
  · -- first call was a miss followed by a successful backend compile
    rename_i hfind
    split at hfirst
    · cases hfirst
    · rename_i compiled hok
      injection hfirst with hfirst
      simp only [Prod.mk.injEq] at hfirst
      obtain ⟨hh1, hc1, hsh, hn⟩ := hfirst
      subst hc1
      subst hsh
      have hkeyE : alookup (ensureKey c.specialized_shaders h []) h =
          some ((alookup c.specialized_shaders h).getD []) :=
        alookup_ensureKey_self c.specialized_shaders h []
      have hkeyS : alookup (setKey (ensureKey c.specialized_shaders h []) h
          ((alookup c.specialized_shaders h).getD [] ++
            [⟨(shaders.add compiled).1, spec⟩])) h =
          some ((alookup c.specialized_shaders h).getD [] ++
            [⟨(shaders.add compiled).1, spec⟩]) :=
        alookup_setKey_self _ h _ _ hkeyE
      have hget1 : (shaders.add compiled).2.get h = some s :=
        Assets.get_add_of_wf shaders compiled h hwf s hs
      simp only [PipelineCompiler.compile_shader, hget1, hglsl,
        ensureKey_eq_self _ h [] _ hkeyS, hkeyS, Option.getD_some]
      rw [find?_ext _ _ (fun e => e.specialization.eqv spec)
        (fun e hx => hcongr e)]
      rw [List.find?_append, hfind]
      have hreflx :
          ((⟨(shaders.add compiled).1, spec⟩ :
            SpecializedShader).specialization.eqv spec) = true :=
        sspecEqvRefl spec
      simp [List.find?_cons, hreflx, Option.none_or, hh1]

/-- Witness for C5: after a first miss compiling definitions set
`{A, B}` (handle 1 created), re-requesting the set-equal specialization
`{B, A}` returns handle 1 with no backend call and no state change. -/
theorem compile_shader_cache_hit_witness :
    (⟨[(0, [⟨1, ⟨["A", "B"]⟩⟩])], [], []⟩ : PipelineCompiler).compile_shader
        ctx0 ⟨[(1, ⟨ShaderSource.Glsl "void main()"⟩),
               (0, ⟨ShaderSource.Glsl "void main()"⟩)], 2⟩ 0 ⟨["B", "A"]⟩ =
      some (Except.ok 1,
        (⟨[(0, [⟨1, ⟨["A", "B"]⟩⟩])], [], []⟩ : PipelineCompiler),
        (⟨[(1, ⟨ShaderSource.Glsl "void main()"⟩),
           (0, ⟨ShaderSource.Glsl "void main()"⟩)], 2⟩ : Assets Shader), 0) :=
  compile_shader_cache_hit emptyCompiler ctx0 shaders0 0 ⟨["A", "B"]⟩
    ⟨["B", "A"]⟩ 1
    ⟨[(0, [⟨1, ⟨["A", "B"]⟩⟩])], [], []⟩
    ⟨[(1, ⟨ShaderSource.Glsl "void main()"⟩),
      (0, ⟨ShaderSource.Glsl "void main()"⟩)], 2⟩ 1
    ⟨ShaderSource.Glsl "void main()"⟩ "void main()"
    (by unfold Assets.wf; decide) rfl rfl (by decide) (by decide)

/-! ## Lemmas about asset removal and pipeline eviction -/

theorem find?_filter_self {α : Type} (l : List (Handle × α)) (h : Handle) :
    (l.filter (fun p => p.1 != h)).find? (fun p => p.1 == h) = none := by
  induction l with
  | nil => rfl
  | cons p rest ih =>
    by_cases hp : p.1 = h
    · simp [List.filter_cons, hp, ih]
    · simp only [List.filter_cons, bne_iff_ne, ne_eq, hp, not_false_eq_true,
        decide_True, if_true]
      rw [List.find?_cons_of_neg _ (by simp [hp])]
      exact ih

theorem find?_filter_none {α : Type} (l : List (Handle × α)) (h k : Handle)
    (hn : l.find? (fun p => p.1 == k) = none) :
    (l.filter (fun p => p.1 != h)).find? (fun p => p.1 == k) = none := by
  induction l with
  | nil => rfl
  | cons p rest ih =>
    by_cases hpk : p.1 = k
    · rw [List.find?_cons_of_pos _ (by simp [hpk])] at hn
      cases hn
    · rw [List.find?_cons_of_neg _ (by simp [hpk])] at hn
      by_cases hph : p.1 = h
      · simp only [List.filter_cons, bne_iff_ne, ne_eq, hph, not_true_eq_false,
          decide_False, if_false]
        exact ih hn
      · simp only [List.filter_cons, bne_iff_ne, ne_eq, hph, not_false_eq_true,
          decide_True, if_true]
        rw [List.find?_cons_of_neg _ (by simp [hpk])]
        exact ih hn

theorem Assets.get_remove_self {α : Type} (a : Assets α) (h : Handle) :
    (a.remove h).get h = none := by
  unfold Assets.remove Assets.get
  simp [find?_filter_self a.data h]

theorem Assets.get_remove_none {α : Type} (a : Assets α) (h k : Handle)
    (hn : a.get k = none) : (a.remove h).get k = none := by
  unfold Assets.get at hn
  have hfind : a.data.find? (fun p => p.1 == k) = none :=
    Option.map_eq_none'.mp hn
  unfold Assets.remove Assets.get
  simp [find?_filter_none a.data h k hfind]

/-- Removing every pipeline of a list from asset storage preserves absent
slots. -/
theorem removeAssets_none (l : List SpecializedPipeline)
    (a : Assets PipelineDescriptor) (k : Handle) (hn : a.get k = none) :
    (l.foldl (fun ps p => ps.remove p.pipeline) a).get k = none := by
  induction l generalizing a with
  | nil => exact hn
  | cons q rest ih =>
    exact ih (a.remove q.pipeline) (Assets.get_remove_none _ _ _ hn)

/-- Removing every pipeline of a list from asset storage removes the listed
slots. -/
theorem removeAssets_mem (l : List SpecializedPipeline)
    (a : Assets PipelineDescriptor) (q : SpecializedPipeline) (hq : q ∈ l) :
    (l.foldl (fun ps p => ps.remove p.pipeline) a).get q.pipeline = none := by
  induction l generalizing a with
  | nil => cases hq
  | cons q0 rest ih =>
    rcases List.mem_cons.mp hq with h | h
    · subst h
      by_cases hmem : q ∈ rest
      · exact ih (a.remove q.pipeline) hmem
      · exact removeAssets_none rest _ _ (Assets.get_remove_self a q.pipeline)
    · exact ih (a.remove q0.pipeline) h

/-- Combined behaviour of `evictPipelines`: asset slots already absent stay
absent; source pipelines outside the list are untouched; every key is
either untouched or fully removed together with its compiled assets; and
every listed source pipeline ends up fully removed. -/
theorem evictPipelines_spec (srcs : List Handle)
    (sp : List (Handle × List SpecializedPipeline))
    (pipelines : Assets PipelineDescriptor) :
    (∀ k, pipelines.get k = none →
      (evictPipelines srcs sp pipelines).2.get k = none) ∧
    (∀ p, p ∉ srcs →
      alookup (evictPipelines srcs sp pipelines).1 p = alookup sp p) ∧
    (∀ p, alookup (evictPipelines srcs sp pipelines).1 p = alookup sp p ∨
      (alookup (evictPipelines srcs sp pipelines).1 p = none ∧
       ∀ q ∈ (alookup sp p).getD [],
         (evictPipelines srcs sp pipelines).2.get q.pipeline = none)) ∧
    (∀ p ∈ srcs, alookup (evictPipelines srcs sp pipelines).1 p = none ∧
       ∀ q ∈ (alookup sp p).getD [],
         (evictPipelines srcs sp pipelines).2.get q.pipeline = none) := by
  induction srcs generalizing sp pipelines with
  | nil =>
    refine ⟨fun k hk => hk, fun p hp => rfl, fun p => Or.inl rfl, ?_⟩
    intro p hp; cases hp
  | cons s rest ih =>
    cases hs : alookup sp s with
    | none =>
      have heq : evictPipelines (s :: rest) sp pipelines =
          evictPipelines rest sp pipelines := by
        simp only [evictPipelines, hs]
      rw [heq]
      obtain ⟨ih1, ih2, ih3, ih4⟩ := ih sp pipelines
      refine ⟨ih1, ?_, ih3, ?_⟩
      · intro p hp
        exact ih2 p (fun hmem => hp (List.mem_cons_of_mem s hmem))
      · intro p hp
        by_cases hps : p = s
        · subst hps
          constructor
          · rcases ih3 p with h | h
            · rw [h, hs]
            · exact h.1
          · intro q hq
            rw [hs] at hq
            cases hq
        · exact ih4 p ((List.mem_cons.mp hp).resolve_left hps)
    | some l =>
      have heq : evictPipelines (s :: rest) sp pipelines =
          evictPipelines rest (removeKey sp s)
            (l.foldl (fun ps p => ps.remove p.pipeline) pipelines) := by
        simp only [evictPipelines, hs]
      rw [heq]
      obtain ⟨ih1, ih2, ih3, ih4⟩ :=
        ih (removeKey sp s) (l.foldl (fun ps p => ps.remove p.pipeline) pipelines)
      have hassets : ∀ q ∈ l,
          (evictPipelines rest (removeKey sp s)
            (l.foldl (fun ps p => ps.remove p.pipeline) pipelines)).2.get
              q.pipeline = none :=
        fun q hq => ih1 q.pipeline (removeAssets_mem l pipelines q hq)
      refine ⟨?_, ?_, ?_, ?_⟩
      · intro k hk
        exact ih1 k (removeAssets_none l pipelines k hk)
      · intro p hp
        have hps : p ≠ s := fun hh => hp (hh ▸ List.mem_cons_self s rest)
        have hrest : p ∉ rest := fun hmem => hp (List.mem_cons_of_mem s hmem)
        rw [ih2 p hrest, alookup_removeKey_ne sp s p hps]
      · intro p
        by_cases hps : p = s
        · subst hps
          right
          constructor
          · rcases ih3 p with h | h
            · rw [h, alookup_removeKey_self]
            · exact h.1
          · intro q hq
            rw [hs] at hq
            exact hassets q (by simpa using hq)
        · rcases ih3 p with h | h
          · left; rw [h, alookup_removeKey_ne sp s p hps]
          · right
            refine ⟨h.1, ?_⟩
            intro q hq
            exact h.2 q (by rwa [alookup_removeKey_ne sp s p hps])
      · intro p hp
        by_cases hps : p = s
        · subst hps
          constructor
          · rcases ih3 p with h | h
            · rw [h, alookup_removeKey_self]
            · exact h.1
          · intro q hq
            rw [hs] at hq
            exact hassets q (by simpa using hq)
        · have hrest : p ∈ rest := (List.mem_cons.mp hp).resolve_left hps
          obtain ⟨h1, h2⟩ := ih4 p hrest
          refine ⟨h1, ?_⟩
          intro q hq
          exact h2 q (by rwa [alookup_removeKey_ne sp s p hps])

/-! ## Lemmas about the `update_shader` entry loop -/

/-- The loop only shrinks the specialized-pipeline cache and the pipeline
asset storage: absent asset slots stay absent, and every cache key is
either untouched or removed together with its compiled assets. -/
theorem updateShaderLoop_spec (ctx : RenderResourceContext) (shader : Handle)
    (entries : List SpecializedShader) :
    ∀ ssp sp pipelines shaders calls res entries1 ssp1 sp1 pipelines1
      shaders1 calls1,
    updateShaderLoop ctx shader entries ssp sp pipelines shaders calls =
      some (res, entries1, ssp1, sp1, pipelines1, shaders1, calls1) →
    (∀ k, pipelines.get k = none → pipelines1.get k = none) ∧
    (∀ p, alookup sp1 p = alookup sp p ∨
      (alookup sp1 p = none ∧
       ∀ q ∈ (alookup sp p).getD [], pipelines1.get q.pipeline = none)) := by
  induction entries with
  | nil =>
    intro ssp sp pipelines shaders calls res entries1 ssp1 sp1 pipelines1
      shaders1 calls1 hr
    simp only [updateShaderLoop] at hr
    injection hr with hr
    simp only [Prod.mk.injEq] at hr
    obtain ⟨rfl, rfl, rfl, rfl, rfl, rfl, rfl⟩ := hr
    exact ⟨fun k hk => hk, fun p => Or.inl rfl⟩
  | cons entry rest ih =>
    intro ssp sp pipelines shaders calls res entries1 ssp1 sp1 pipelines1
      shaders1 calls1 hr
    simp only [updateShaderLoop] at hr
    split at hr
    · cases hr
    · rename_i template htempl
      split at hr
      · injection hr with hr
        simp only [Prod.mk.injEq] at hr
        obtain ⟨rfl, rfl, rfl, rfl, rfl, rfl, rfl⟩ := hr
        exact ⟨fun k hk => hk, fun p => Or.inl rfl⟩
      · rename_i compiled hok
        split at hr
        · rename_i hnone
          split at hr
          · cases hr
          · rename_i res2 rest1 ssp2 sp2 pipelines2 shaders2 calls2 heqrec
            injection hr with hr
            simp only [Prod.mk.injEq] at hr
            obtain ⟨rfl, rfl, rfl, rfl, rfl, rfl, rfl⟩ := hr
            exact ih _ _ _ _ _ _ _ _ _ _ _ _ heqrec
        · rename_i source_pipelines hsome
          split at hr
          · cases hr
          · rename_i res2 rest1 ssp2 sp2 pipelines2 shaders2 calls2 heqrec
            injection hr with hr
            simp only [Prod.mk.injEq] at hr
            obtain ⟨rfl, rfl, rfl, rfl, rfl, rfl, rfl⟩ := hr
            obtain ⟨ihn, ihs⟩ := ih _ _ _ _ _ _ _ _ _ _ _ _ heqrec
            obtain ⟨ev1, ev2, ev3, ev4⟩ :=
              evictPipelines_spec source_pipelines sp pipelines
            refine ⟨?_, ?_⟩
            · intro k hk
              exact ihn k (ev1 k hk)
            · intro p
              rcases ihs p with h | h
              · rcases ev3 p with h2 | h2
                · left; rw [h, h2]
                · right
                  refine ⟨by rw [h, h2.1], ?_⟩
                  intro q hq
                  exact ihn q.pipeline (h2.2 q hq)
              · right
                refine ⟨h.1, ?_⟩
                intro q hq
                rcases ev3 p with h2 | h2
                · exact h.2 q (by rw [h2]; exact hq)
                · exact ihn q.pipeline (h2.2 q hq)

/-- When the loop finishes successfully, every source pipeline that
consumed any of the stale specialized-shader handles has its cache entry
removed and the corresponding compiled pipeline objects deleted from asset
storage. -/
theorem updateShaderLoop_evicts (ctx : RenderResourceContext) (shader : Handle)
    (entries : List SpecializedShader) :
    ∀ ssp sp pipelines shaders calls entries1 ssp1 sp1 pipelines1
      shaders1 calls1,
    updateShaderLoop ctx shader entries ssp sp pipelines shaders calls =
      some (Except.ok (), entries1, ssp1, sp1, pipelines1, shaders1, calls1) →
    (entries.map (fun e => e.shader)).Nodup →
    ∀ e ∈ entries, ∀ srcs, alookup ssp e.shader = some srcs →
    ∀ p ∈ srcs, alookup sp1 p = none ∧
      ∀ q ∈ (alookup sp p).getD [], pipelines1.get q.pipeline = none := by
  induction entries with
  | nil =>
    intro ssp sp pipelines shaders calls entries1 ssp1 sp1 pipelines1
      shaders1 calls1 hr hnd e he
    cases he
  | cons entry rest ih =>
    intro ssp sp pipelines shaders calls entries1 ssp1 sp1 pipelines1
      shaders1 calls1 hr hnd e he srcs hsrcs p hp
    rw [List.map_cons, List.nodup_cons] at hnd
    obtain ⟨hnotin, hndrest⟩ := hnd
    simp only [updateShaderLoop] at hr
    split at hr
    · cases hr
    · rename_i template htempl
      split at hr
      · simp at hr
      · rename_i compiled hok
        split at hr
        · rename_i hnone
          split at hr
          · cases hr
          · rename_i res2 rest1 ssp2 sp2 pipelines2 shaders2 calls2 heqrec
            injection hr with hr
            simp only [Prod.mk.injEq] at hr
            obtain ⟨rfl, rfl, rfl, rfl, rfl, rfl, rfl⟩ := hr
            rcases List.mem_cons.mp he with hhead | htail
            · subst hhead
              rw [hnone] at hsrcs
              cases hsrcs
            · exact ih _ _ _ _ _ _ _ _ _ _ _ heqrec hndrest e htail srcs
                hsrcs p hp
        · rename_i source_pipelines hsome
          split at hr
          · cases hr
          · rename_i res2 rest1 ssp2 sp2 pipelines2 shaders2 calls2 heqrec
            injection hr with hr
            simp only [Prod.mk.injEq] at hr
            obtain ⟨rfl, rfl, rfl, rfl, rfl, rfl, rfl⟩ := hr
            obtain ⟨ln, ls⟩ :=
              updateShaderLoop_spec ctx shader rest _ _ _ _ _ _ _ _ _ _ _ _
                heqrec
            obtain ⟨ev1, ev2, ev3, ev4⟩ :=
              evictPipelines_spec source_pipelines sp pipelines
            rcases List.mem_cons.mp he with hhead | htail
            · subst hhead
              rw [hsome] at hsrcs
              injection hsrcs with hsrcs
              subst hsrcs
              obtain ⟨hev, hevassets⟩ := ev4 p hp
              constructor
              · rcases ls p with h | h
                · rw [h, hev]
                · exact h.1
              · intro q hq
                exact ln q.pipeline (hevassets q hq)
            · have hne : e.shader ≠ entry.shader := fun hh =>
                hnotin (hh ▸ List.mem_map_of_mem (fun x => x.shader) htail)
              have hsrcs2 : alookup (removeKey ssp entry.shader) e.shader =
                  some srcs := by
                rwa [alookup_removeKey_ne ssp entry.shader e.shader hne]
              obtain ⟨h1, h2⟩ := ih _ _ _ _ _ _ _ _ _ _ _ heqrec hndrest e
                htail srcs hsrcs2 p hp
              refine ⟨h1, ?_⟩
              intro q hq
              rcases ev3 p with hv | hv
              · exact h2 q (by rw [hv]; exact hq)
              · exact ln q.pipeline (hv.2 q hq)

/-- `update_shader` never adds to the specialized-pipeline cache: every key
is untouched or removed. -/
theorem update_shader_shrinks
    (c : PipelineCompiler) (ctx : RenderResourceContext) (shader : Handle)
    (ps : Assets PipelineDescriptor) (sh : Assets Shader)
    (res : Except ShaderError Unit) (c1 : PipelineCompiler)
    (ps1 : Assets PipelineDescriptor) (sh1 : Assets Shader) (n : Nat)
    (hr : c.update_shader ctx shader ps sh = some (res, c1, ps1, sh1, n)) :
    ∀ k, alookup c1.specialized_pipelines k =
        alookup c.specialized_pipelines k ∨
      alookup c1.specialized_pipelines k = none := by
  simp only [PipelineCompiler.update_shader] at hr
  split at hr
  · injection hr with hr
    simp only [Prod.mk.injEq] at hr
    obtain ⟨rfl, rfl, rfl, rfl, rfl⟩ := hr
    exact fun k => Or.inl rfl
  · rename_i entries hen
    split at hr
    · cases hr
    · rename_i res2 entries2 ssp2 sp2 pipelines2 shaders2 calls2 heq
      injection hr with hr
      simp only [Prod.mk.injEq] at hr
      obtain ⟨rfl, rfl, rfl, rfl, rfl⟩ := hr
      obtain ⟨_, hs⟩ :=
        updateShaderLoop_spec ctx shader entries _ _ _ _ _ _ _ _ _ _ _ _ heq
      intro k
      rcases hs k with h | h
      · exact Or.inl h
      · exact Or.inr h.1

/-! ## C4: a successful `update_shader` evicts all dependent pipelines -/

/-- C4: after `update_shader` succeeds on a template shader, every source
pipeline that consumed one of its old specialized shader handles (as
recorded in the reverse index) has all of its specialized-pipeline cache
entries removed — `get_specialized_pipeline` answers "not found" for every
specialization, until a later `compile_pipeline` rebuilds it — and every
compiled pipeline object that was cached for it has been removed from asset
storage.  (The old specialized handles are assumed pairwise distinct, as
`compile_shader` guarantees by constructing each from a fresh id.) -/
theorem update_shader_evicts_dependents
    (c : PipelineCompiler) (ctx : RenderResourceContext) (shader : Handle)
    (pipelines : Assets PipelineDescriptor) (shaders : Assets Shader)
    (c1 : PipelineCompiler) (pipelines1 : Assets PipelineDescriptor)
    (shaders1 : Assets Shader) (n : Nat)
    (hr : c.update_shader ctx shader pipelines shaders =
      some (Except.ok (), c1, pipelines1, shaders1, n))
    (entries : List SpecializedShader)
    (hen : alookup c.specialized_shaders shader = some entries)
    (hnd : (entries.map (fun e => e.shader)).Nodup)
    (e : SpecializedShader) (he : e ∈ entries)
    (srcs : List Handle)
    (hsrcs : alookup c.specialized_shader_pipelines e.shader = some srcs)
    (p : Handle) (hp : p ∈ srcs) :
    (∀ spec, c1.get_specialized_pipeline p spec = none) ∧
    (∀ q ∈ (alookup c.specialized_pipelines p).getD [],
      pipelines1.get q.pipeline = none) := by
  simp only [PipelineCompiler.update_shader, hen] at hr
  split at hr
  · cases hr
  · rename_i res2 entries2 ssp2 sp2 pipelines2 shaders2 calls2 heq
    injection hr with hr
    simp only [Prod.mk.injEq] at hr
    obtain ⟨rfl, rfl, rfl, rfl, rfl⟩ := hr
    obtain ⟨hlook, hassets⟩ :=
      updateShaderLoop_evicts ctx shader entries _ _ _ _ _ _ _ _ _ _ _ heq
        hnd e he srcs hsrcs p hp
    constructor
    · intro spec
      simp only [PipelineCompiler.get_specialized_pipeline]
      rw [hlook]
      rfl
    · exact hassets

/-- Witness for C4: updating template shader 0 from the post-`run1` state
evicts source pipeline 0's only specialized pipeline (handle 1) from the
cache and from asset storage. -/
theorem update_shader_evicts_dependents_witness :
    (∀ spec, (⟨[(0, [⟨2, ⟨[]⟩⟩])], [], []⟩ :
        PipelineCompiler).get_specialized_pipeline 0 spec = none) ∧
    (∀ q ∈ (alookup run1res.compiler.specialized_pipelines 0).getD [],
      (⟨[(0, templateDescriptor)], 2⟩ :
        Assets PipelineDescriptor).get q.pipeline = none) :=
  update_shader_evicts_dependents run1res.compiler ctx0 0 run1res.pipelines
    run1res.shaders ⟨[(0, [⟨2, ⟨[]⟩⟩])], [], []⟩ ⟨[(0, templateDescriptor)], 2⟩
    ⟨[(2, ⟨ShaderSource.Glsl "void main()"⟩),
      (0, ⟨ShaderSource.Glsl "void main()"⟩)], 3⟩ 1 (by decide)
    [⟨1, ⟨[]⟩⟩] rfl (by decide) ⟨1, ⟨[]⟩⟩ (by decide) [0] rfl 0 (by decide)

/-! ## C7: a failing recompile aborts `update_shader` immediately -/

/-- Error-path characterization of the entry loop: a backend failure at the
i-th entry stops the loop after exactly i+1 backend calls, leaves the
entry list from position i on unchanged, and confines all evictions to
dependents of the first i entries. -/
theorem updateShaderLoop_err (ctx : RenderResourceContext) (shader : Handle)
    (entries : List SpecializedShader) :
    ∀ ssp sp pipelines shaders calls err entries1 ssp1 sp1 pipelines1
      shaders1 calls1,
    updateShaderLoop ctx shader entries ssp sp pipelines shaders calls =
      some (Except.error err, entries1, ssp1, sp1, pipelines1, shaders1,
        calls1) →
    (entries.map (fun e => e.shader)).Nodup →
    ∃ i, ∃ hi : i < entries.length,
      calls1 = calls + i + 1 ∧
      entries1.length = entries.length ∧
      entries1.drop i = entries.drop i ∧
      ∀ p, (∀ k (hk : k < i) srcs,
          alookup ssp (entries.get ⟨k, Nat.lt_trans hk hi⟩).shader =
            some srcs → p ∉ srcs) →
        alookup sp1 p = alookup sp p := by
  induction entries with
  | nil =>
    intro ssp sp pipelines shaders calls err entries1 ssp1 sp1 pipelines1
      shaders1 calls1 hr hnd
    simp only [updateShaderLoop] at hr
    simp at hr
  | cons entry rest ih =>
    intro ssp sp pipelines shaders calls err entries1 ssp1 sp1 pipelines1
      shaders1 calls1 hr hnd
    rw [List.map_cons, List.nodup_cons] at hnd
    obtain ⟨hnotin, hndrest⟩ := hnd
    simp only [updateShaderLoop] at hr
    split at hr
    · cases hr
    · rename_i template htempl
      split at hr
      · rename_i err0 herr
        injection hr with hr
        simp only [Prod.mk.injEq] at hr
        obtain ⟨herr2, rfl, rfl, rfl, rfl, rfl, rfl⟩ := hr
        refine ⟨0, by simp, by omega, rfl, rfl, fun p hp => rfl⟩
      · rename_i compiled hok
        split at hr
        · rename_i hnone
          split at hr
          · cases hr
          · rename_i res2 rest1 ssp2 sp2 pipelines2 shaders2 calls2 heqrec
            injection hr with hr
            simp only [Prod.mk.injEq] at hr
            obtain ⟨rfl, rfl, rfl, rfl, rfl, rfl, rfl⟩ := hr
            obtain ⟨i, hi, hcalls, hlen, hdrop, hconf⟩ :=
              ih _ _ _ _ _ _ _ _ _ _ _ _ heqrec hndrest
            refine ⟨i + 1, by simpa using Nat.succ_lt_succ hi, by omega,
              by simpa using hlen, by simpa using hdrop, ?_⟩
            intro p hp
            apply hconf p
            intro k hk srcs hsrcs2
            have := hp (k + 1) (Nat.succ_lt_succ hk) srcs
            simp only [List.get_cons_succ] at this
            exact this hsrcs2
        · rename_i source_pipelines hsome
          split at hr
          · cases hr
          · rename_i res2 rest1 ssp2 sp2 pipelines2 shaders2 calls2 heqrec
            injection hr with hr
            simp only [Prod.mk.injEq] at hr
            obtain ⟨rfl, rfl, rfl, rfl, rfl, rfl, rfl⟩ := hr
            obtain ⟨i, hi, hcalls, hlen, hdrop, hconf⟩ :=
              ih _ _ _ _ _ _ _ _ _ _ _ _ heqrec hndrest
            obtain ⟨ev1, ev2, ev3, ev4⟩ :=
              evictPipelines_spec source_pipelines sp pipelines
            refine ⟨i + 1, by simpa using Nat.succ_lt_succ hi, by omega,
              by simpa using hlen, by simpa using hdrop, ?_⟩
            intro p hp
            have hp0 : p ∉ source_pipelines := by
              have := hp 0 (Nat.succ_pos i) source_pipelines
              simp only [List.get_cons_zero] at this
              exact this hsome
            have hstep : alookup (evictPipelines source_pipelines sp
                pipelines).1 p = alookup sp p := ev2 p hp0
            rw [← hstep]
            apply hconf p
            intro k hk srcs hsrcs2
            have hmem : rest.get ⟨k, Nat.lt_trans hk hi⟩ ∈ rest :=
              List.get_mem rest k (Nat.lt_trans hk hi)
            have hne : (rest.get ⟨k, Nat.lt_trans hk hi⟩).shader ≠
                entry.shader := fun hh =>
              hnotin (hh ▸ List.mem_map_of_mem (fun x => x.shader) hmem)
            rw [alookup_removeKey_ne ssp entry.shader _ hne] at hsrcs2
            have := hp (k + 1) (Nat.succ_lt_succ hk) srcs
            simp only [List.get_cons_succ] at this
            exact this hsrcs2

/-- C7: if recompiling the i-th specialized-shader entry fails during
`update_shader`, the error is returned immediately: the backend was invoked
exactly i+1 times (once per entry up to and including the failing one — the
failed compilation is never retried and no later entry is recompiled), the
entry list from position i on is unchanged (no later entry is swapped), and
the specialized-pipeline cache of every source pipeline that does not
depend on one of the first i already-processed entries is untouched, so no
later entry's dependent pipelines are evicted.  (The old specialized
handles are assumed pairwise distinct, as `compile_shader` guarantees.) -/
theorem update_shader_error_aborts
    (c : PipelineCompiler) (ctx : RenderResourceContext) (shader : Handle)
    (pipelines : Assets PipelineDescriptor) (shaders : Assets Shader)
    (err : ShaderError) (c1 : PipelineCompiler)
    (pipelines1 : Assets PipelineDescriptor) (shaders1 : Assets Shader)
    (n : Nat)
    (hr : c.update_shader ctx shader pipelines shaders =
      some (Except.error err, c1, pipelines1, shaders1, n))
    (entries : List SpecializedShader)
    (hen : alookup c.specialized_shaders shader = some entries)
    (hnd : (entries.map (fun e => e.shader)).Nodup) :
    ∃ i, ∃ hi : i < entries.length,
      n = i + 1 ∧
      ∃ entries1, alookup c1.specialized_shaders shader = some entries1 ∧
        entries1.length = entries.length ∧
        entries1.drop i = entries.drop i ∧
        ∀ p, (∀ k (hk : k < i) srcs,
            alookup c.specialized_shader_pipelines
              (entries.get ⟨k, Nat.lt_trans hk hi⟩).shader = some srcs →
            p ∉ srcs) →
          alookup c1.specialized_pipelines p =
            alookup c.specialized_pipelines p := by
  simp only [PipelineCompiler.update_shader, hen] at hr
  split at hr
  · cases hr
  · rename_i res2 entries2 ssp2 sp2 pipelines2 shaders2 calls2 heq
    injection hr with hr
    simp only [Prod.mk.injEq] at hr
    obtain ⟨rfl, rfl, rfl, rfl, rfl⟩ := hr
    obtain ⟨i, hi, hcalls, hlen, hdrop, hconf⟩ :=
      updateShaderLoop_err ctx shader entries _ _ _ _ _ _ _ _ _ _ _ _ heq hnd
    exact ⟨i, hi, by omega, entries2, alookup_setKey_self _ _ _ _ hen,
      hlen, hdrop, hconf⟩

/-- Backend for the C7 witness: compilation fails when definition "B" is
requested. -/
def ctxFail : RenderResourceContext :=
  { get_specialized_shader := fun s defs =>
      if defs.contains "B" then Except.error (ShaderError.CompileError "bad")
      else Except.ok s,
    reflect_pipeline_layout := fun _ _ =>
      { bind_groups := [], vertex_buffer_descriptors := [] } }

/-- Compiler state for the C7 witness: template shader 0 has one
specialized entry (handle 1, definitions `{B}`); source pipeline 5 depends
on handle 1 and caches compiled pipeline 9. -/
def c7 : PipelineCompiler :=
  ⟨[(0, [⟨1, ⟨["B"]⟩⟩])], [(1, [5])], [(5, [⟨9, pspec0⟩])]⟩

/-- Shader assets for the C7 witness. -/
def shaders7 : Assets Shader :=
  ⟨[(1, ⟨ShaderSource.Glsl "void main()"⟩),
    (0, ⟨ShaderSource.Glsl "void main()"⟩)], 2⟩

/-- Pipeline assets for the C7 witness. -/
def pipelines7 : Assets PipelineDescriptor := ⟨[(9, templateDescriptor)], 10⟩

/-- Witness for C7: the failing recompile of the only entry (position 0)
returns the error after exactly one backend call and leaves everything
untouched. -/
theorem update_shader_error_aborts_witness :
    ∃ i, ∃ hi : i < ([⟨1, ⟨["B"]⟩⟩] : List SpecializedShader).length,
      (1 : Nat) = i + 1 ∧
      ∃ entries1, alookup c7.specialized_shaders 0 = some entries1 ∧
        entries1.length = ([⟨1, ⟨["B"]⟩⟩] : List SpecializedShader).length ∧
        entries1.drop i = ([⟨1, ⟨["B"]⟩⟩] : List SpecializedShader).drop i ∧
        ∀ p, (∀ k (hk : k < i) srcs,
            alookup c7.specialized_shader_pipelines
              (([⟨1, ⟨["B"]⟩⟩] : List SpecializedShader).get
                ⟨k, Nat.lt_trans hk hi⟩).shader = some srcs →
            p ∉ srcs) →
          alookup c7.specialized_pipelines p =
            alookup c7.specialized_pipelines p :=
  update_shader_error_aborts c7 ctxFail 0 pipelines7 shaders7
    (ShaderError.CompileError "bad") c7 pipelines7 shaders7 1 (by decide)
    [⟨1, ⟨["B"]⟩⟩] rfl (by decide)

/-! ## C2 (amended): no duplicate specializations under guarded calls -/

/-- The C2 invariant: within one template pipeline's entry list no two
entries have equal `PipelineSpecialization`s. -/
def NoDupSpecs (c : PipelineCompiler) : Prop :=
  ∀ k l, alookup c.specialized_pipelines k = some l →
    l.Pairwise (fun a b => a.specialization.eqv b.specialization = false)

/-- Compiler states reachable from the empty compiler by the public
operations, where `compile_pipeline` is invoked only after
`get_specialized_pipeline` reported a miss for the same key — the guarded
calling discipline under which the surrounding engine drives the compiler.
Asset storages and the backend are arbitrary at every step. -/
inductive Reach : PipelineCompiler → Prop where
  | init : Reach ⟨[], [], []⟩
  | cshader (c : PipelineCompiler) (ctx : RenderResourceContext)
      (sh : Assets Shader) (h : Handle) (spec : ShaderSpecialization)
      (res : Except ShaderError Handle) (c1 : PipelineCompiler)
      (sh1 : Assets Shader) (n : Nat) :
      Reach c → c.compile_shader ctx sh h spec = some (res, c1, sh1, n) →
      Reach c1
  | cpipeline (c : PipelineCompiler) (ctx : RenderResourceContext)
      (ps : Assets PipelineDescriptor) (sh : Assets Shader) (src : Handle)
      (pspec : PipelineSpecialization) (r : CompilePipelineResult) :
      Reach c → c.get_specialized_pipeline src pspec = none →
      c.compile_pipeline ctx ps sh src pspec = some r →
      Reach r.compiler
  | cupdate (c : PipelineCompiler) (ctx : RenderResourceContext)
      (shader : Handle) (ps : Assets PipelineDescriptor)
      (sh : Assets Shader) (res : Except ShaderError Unit)
      (c1 : PipelineCompiler) (ps1 : Assets PipelineDescriptor)
      (sh1 : Assets Shader) (n : Nat) :
      Reach c → c.update_shader ctx shader ps sh =
        some (res, c1, ps1, sh1, n) →
      Reach c1

/-- A `get_specialized_pipeline` miss means no cached entry is
specialization-equal to the request. -/
theorem get_specialized_pipeline_none
    (c : PipelineCompiler) (src : Handle) (pspec : PipelineSpecialization)
    (hmiss : c.get_specialized_pipeline src pspec = none) :
    ∀ a ∈ (alookup c.specialized_pipelines src).getD [],
      a.specialization.eqv pspec = false := by
  intro a ha
  unfold PipelineCompiler.get_specialized_pipeline at hmiss
  cases hl : alookup c.specialized_pipelines src with
  | none => rw [hl] at ha; cases ha
  | some l =>
    rw [hl] at hmiss ha
    simp only [Option.some_bind] at hmiss
    have hfind : l.find?
        (fun current => current.specialization.eqv pspec) = none :=
      Option.map_eq_none'.mp hmiss
    have := List.find?_eq_none.mp hfind a (by simpa using ha)
    simpa using this

/-- C2 (amended): for every compiler state reachable from the empty
compiler by `compile_shader` / `update_shader` calls and by
`compile_pipeline` calls made only on a `get_specialized_pipeline` miss,
no two entries within one template pipeline's specialized-pipeline entry
list have an equal `PipelineSpecialization`. -/
theorem reachable_no_duplicate_specializations
    (c : PipelineCompiler) (h : Reach c) : NoDupSpecs c := by
  induction h with
  | init =>
    intro k l hl
    cases hl
  | cshader c ctx sh hh spec res c1 sh1 n hreach heq ihr =>
    intro k l hl
    have hstate := compile_shader_state c ctx sh hh spec res c1 sh1 n heq
    rw [hstate.1] at hl
    exact ihr k l hl
  | cpipeline c ctx ps sh src pspec r hreach hmiss heq ihr =>
    intro k l hl
    obtain ⟨sd, stages, layout, specialized, hget, hspec2, hh, hp, hgetr,
      hm, hcp⟩ := compile_pipeline_inv c ctx ps sh src pspec r heq
    rw [hcp] at hl
    by_cases hks : k = src
    · subst hks
      rw [alookup_pushKey_self] at hl
      injection hl with hl
      subst hl
      rw [List.pairwise_append]
      refine ⟨?_, List.pairwise_singleton _ _, ?_⟩
      · cases hold : alookup c.specialized_pipelines k with
        | none => simp [hold]
        | some l0 => simpa [hold] using ihr k l0 hold
      · intro a ha x hx
        rw [List.mem_singleton] at hx
        subst hx
        exact get_specialized_pipeline_none c k pspec hmiss a ha
    · rw [alookup_pushKey_ne _ _ _ _ hks] at hl
      exact ihr k l hl
  | cupdate c ctx shader ps sh res c1 ps1 sh1 n hreach heq ihr =>
    intro k l hl
    rcases update_shader_shrinks c ctx shader ps sh res c1 ps1 sh1 n heq k
      with hsame | hnone
    · rw [hsame] at hl
      exact ihr k l hl
    · rw [hnone] at hl
      cases hl

/-- Witness for the amended C2: the state after one guarded
`compile_pipeline` call from the empty compiler satisfies the invariant. -/
theorem reachable_no_duplicate_specializations_witness :
    NoDupSpecs run1res.compiler :=
  reachable_no_duplicate_specializations run1res.compiler
    (Reach.cpipeline emptyCompiler ctx0 pipelines0 shaders0 0 pspec0 run1res
      Reach.init rfl (by decide))
